import Mathlib

/-!
# kon: the C bridge over the embedded database engine (`libkon-sys/main.cpp`)

A shallow embedding of the four `extern "C"` entry points (`new_in_memory`,
`destroy`, `query`, `register_arrow_stream`) and of the `ArrowStreamFactory`
adapter class, as explicit state passing over a `World`.

* Pointers, handles and function pointers are natural numbers; `0` is `nullptr`.
* C++ ownership is explicit: a `std::shared_ptr<ArrowStreamFactory>` is an
  address into `World.heap`, whose cells carry the use count; the destructor
  runs when the count reaches zero.  A `std::unique_ptr<ArrowArrayStreamWrapper>`
  is an address into `World.streams`.  Normal scope exit releases the locals of
  the scope; exit by an exception releases them only when the stack is unwound,
  that is, when some caller catches the exception (`Env.caller_catches`).
* Every call of a caller-supplied callback and every call into the engine's
  API is appended to `World.trace`.
* The database engine and the host runtime are external collaborators.  Their
  free choices (which calls fail, which views a statement scans, what a
  producer callback writes) are the fields of `Env`; the rest of the engine
  is a small explicit-state model written from the collaborator contract.
-/

namespace Kon

/-! ## Data model -/

/-- Machine addresses and opaque handles (`void *`, `uintptr_t`, `duckdb_database`, ...). -/
abbrev Addr := Nat

/-- Function pointers. -/
abbrev FnPtr := Nat

/-- The null pointer. -/
def nullptr : Addr := 0

/-- Type `drop_arrow_stream_factory` of main.h line 14: `void (*)(void *)`. -/
abbrev drop_arrow_stream_factory := FnPtr

/-- Type `create_arrow_stream` of main.h line 15: `void (*)(void *, struct ArrowArrayStream *)`. -/
abbrev create_arrow_stream := FnPtr

/-- Status code returned by the engine's C API (`duckdb_state` of duckdb.h). -/
inductive duckdb_state
  | DuckDBSuccess
  | DuckDBError
  deriving DecidableEq, Repr

/-- Engine values (`duckdb::Value`); only the constructors the bridge can meet. -/
inductive Value
  | POINTER (p : Addr)
  | UBIGINT (n : Nat)
  | VARCHAR (s : String)
  deriving DecidableEq, Repr

/-- The C stream descriptor of the columnar interchange interface (arrow.h):
three function pointers and the producer's private data. -/
structure ArrowArrayStream where
  get_schema : FnPtr
  get_next : FnPtr
  release : FnPtr
  private_data : Addr
  deriving DecidableEq, Repr

/-- Struct `ArrowProjectedColumns` of main.cpp lines 4-8. -/
structure ArrowProjectedColumns where
  projection_map : List (Nat × String)
  columns : List String
  deriving DecidableEq, Repr

/-- Struct `ArrowStreamParameters` of main.cpp lines 10-14. -/
structure ArrowStreamParameters where
  projected_columns : ArrowProjectedColumns
  filters : Addr
  deriving DecidableEq, Repr

/-- Class `ArrowStreamFactory` of main.cpp lines 16-20: its three data members. -/
structure ArrowStreamFactory where
  create : create_arrow_stream
  drop : drop_arrow_stream_factory
  private_data : Addr
  deriving DecidableEq, Repr

/-- Control block of a `std::shared_ptr<ArrowStreamFactory>`: the object, its
address and the number of shared owners. -/
structure SharedFactory where
  addr : Addr
  obj : ArrowStreamFactory
  use_count : Nat
  deriving DecidableEq, Repr

/-- A relation handed out by the engine: a table function applied to values. -/
structure Relation where
  fname : String
  params : List Value
  deriving DecidableEq, Repr

/-- An entry of a connection's view table. -/
structure View where
  name : String
  relation : Relation
  temporary : Bool
  deriving DecidableEq, Repr

/-- What `Connection::Query` hands back: rows, or the engine-formatted error. -/
inductive QueryResult
  | rows (scanned : List String)
  | error (msg : String)
  deriving DecidableEq, Repr

/-- Per-connection engine state (`conn->context`): the database it is bound to,
the view table and the dependency registry `external_dependencies`. -/
structure ClientContext where
  db : Addr
  views : List View
  external_dependencies : List (String × List Addr)
  deriving DecidableEq, Repr

/-- Observable events: callback invocations and engine API calls. -/
inductive Event
  | create_call (fn : FnPtr) (private_data : Addr) (out : Addr)
  | drop_call (fn : FnPtr) (private_data : Addr)
  | stream_get_schema (fn : FnPtr) (stream : Addr) (schema : Addr)
  | stream_get_next (fn : FnPtr) (stream : Addr)
  | stream_release (fn : FnPtr) (stream : Addr)
  | duckdb_open (path : Option String)
  | duckdb_connect (db : Addr)
  | duckdb_disconnect (conn : Addr)
  | duckdb_close (db : Addr)
  | Query (conn : Addr) (sql : String)
  | Print (result : QueryResult)
  | TableFunction (conn : Addr) (fname : String) (params : List Value)
  | CreateView (conn : Addr) (name : String) (replace : Bool) (temporary : Bool)
  deriving DecidableEq, Repr

/-- How a call that does not return normally ends: a C++ exception thrown by
the engine, or undefined behaviour (a dangling or null pointer was used). -/
inductive Fault
  | thrown (msg : String)
  | undefined
  deriving DecidableEq, Repr

deriving instance DecidableEq for Except

/-- Where the engine's table-function call throws, when it does. -/
inductive BindFault
  | before_bind
  | after_bind
  deriving DecidableEq, Repr

/-- The free choices of the external collaborators.
* `open_ok`, `connect_ok`: whether `duckdb_open` / `duckdb_connect` succeed;
* `table_function_fault`: whether (and when) `TableFunction` throws;
* `create_view_ok`: whether `CreateView` succeeds for a view name;
* `plan`: the views a SQL text scans, in order (`none`: the text is rejected);
* `pushdown`: the projection/filter parameters the engine passes to a scan;
* `producer`: the descriptor a `create` callback writes for a private state;
* `caller_catches`: whether some caller of the entry points has a handler for
  the engine's exceptions (main.cpp has none of its own). -/
structure Env where
  open_ok : Bool
  connect_ok : Bool
  table_function_fault : String → List Value → Option BindFault
  create_view_ok : String → Bool
  plan : String → Option (List String)
  pushdown : String → ArrowStreamParameters
  producer : FnPtr → Addr → ArrowArrayStream
  caller_catches : Bool

/-- The whole process state. -/
structure World where
  next : Addr
  heap : List SharedFactory
  streams : List (Addr × ArrowArrayStream)
  databases : List Addr
  connections : List (Addr × ClientContext)
  stdout : List QueryResult
  trace : List Event
  deriving DecidableEq, Repr

/-- A fresh process: nothing allocated, nothing printed, nothing called. -/
def World.init : World :=
  { next := 1, heap := [], streams := [], databases := [], connections := [],
    stdout := [], trace := [] }

/-- Append an event to the trace. -/
def World.log (w : World) (e : Event) : World :=
  { w with trace := w.trace ++ [e] }

/-- Allocate a fresh address. -/
def World.alloc (w : World) : Addr × World :=
  (w.next, { w with next := w.next + 1 })

/-! ## Shared and unique ownership -/

/-- The control block of the first live adapter at an address. -/
def findCell (p : Addr) : List SharedFactory → Option SharedFactory
  | [] => none
  | c :: cs => if c.addr = p then some c else findCell p cs

/-- Apply `f` to the use count of the first live adapter at an address. -/
def adjustCell (p : Addr) (f : Nat → Nat) : List SharedFactory → List SharedFactory
  | [] => []
  | c :: cs =>
    if c.addr = p then { c with use_count := f c.use_count } :: cs
    else c :: adjustCell p f cs

/-- Free the first live adapter at an address. -/
def removeCell (p : Addr) : List SharedFactory → List SharedFactory
  | [] => []
  | c :: cs => if c.addr = p then cs else c :: removeCell p cs

/-- Reinterpret an address as an adapter (`reinterpret_cast<ArrowStreamFactory *>`);
`none` when no live adapter is there. -/
def World.factory_at (w : World) (p : Addr) : Option ArrowStreamFactory :=
  (findCell p w.heap).map (fun c => c.obj)

/-- Number of shared owners of the adapter at an address (0 when not live). -/
def World.use_count (w : World) (p : Addr) : Nat :=
  match findCell p w.heap with
  | some c => c.use_count
  | none => 0

/-- Destructor `~ArrowStreamFactory` of main.cpp lines 26-29:
`this->drop(this->private_data)`. -/
def ArrowStreamFactory.dtor (self : ArrowStreamFactory) (w : World) : World :=
  w.log (Event.drop_call self.drop self.private_data)

/-- Expression `std::make_shared<ArrowStreamFactory>(create, drop, private_data)`:
constructor of main.cpp lines 23-25 on fresh storage, with one owner. -/
def make_shared (create : create_arrow_stream) (drop : drop_arrow_stream_factory)
    (private_data : Addr) (w : World) : Addr × World :=
  let factory : ArrowStreamFactory := { create := create, drop := drop, private_data := private_data }
  (w.next,
   { w with next := w.next + 1,
            heap := { addr := w.next, obj := factory, use_count := 1 } :: w.heap })

/-- Copying a `shared_ptr`: one more owner. -/
def shared_ptr_copy (p : Addr) (w : World) : World :=
  { w with heap := adjustCell p (fun n => n + 1) w.heap }

/-- Destroying a `shared_ptr`: one owner fewer; the last owner runs the
destructor and frees the object. -/
def shared_ptr_release (p : Addr) (w : World) : World :=
  match findCell p w.heap with
  | none => w
  | some c =>
    if c.use_count ≤ 1 then
      let w1 := c.obj.dtor w
      { w1 with heap := removeCell p w1.heap }
    else { w with heap := adjustCell p (fun n => n - 1) w.heap }

/-- The descriptor held by the first live stream wrapper at an address. -/
def findStream (s : Addr) : List (Addr × ArrowArrayStream) → Option ArrowArrayStream
  | [] => none
  | (a, d) :: rest => if a = s then some d else findStream s rest

/-- Overwrite the descriptor of the first live stream wrapper at an address. -/
def writeStream (s : Addr) (d : ArrowArrayStream) :
    List (Addr × ArrowArrayStream) → List (Addr × ArrowArrayStream)
  | [] => []
  | (a, old) :: rest => if a = s then (a, d) :: rest else (a, old) :: writeStream s d rest

/-- Free the first live stream wrapper at an address. -/
def removeStream (s : Addr) : List (Addr × ArrowArrayStream) → List (Addr × ArrowArrayStream)
  | [] => []
  | (a, d) :: rest => if a = s then rest else (a, d) :: removeStream s rest

/-- Modelled from the spec: the engine's `ArrowArrayStreamWrapper` (declared in
duckdb.hpp, not under src/) is the "transient object (not retained)" that
"captures a concrete instance of the standardized streaming interface".
`make_unique` value-initialises it: a fresh wrapper whose descriptor has a null
`release`. -/
def make_unique_ArrowArrayStreamWrapper (w : World) : Addr × World :=
  let empty : ArrowArrayStream :=
    { get_schema := nullptr, get_next := nullptr, release := nullptr, private_data := nullptr }
  (w.next, { w with next := w.next + 1, streams := (w.next, empty) :: w.streams })

/-- Modelled from the spec: destructor of the engine's `ArrowArrayStreamWrapper`
(not under src/), which "discards the stream": a populated descriptor is
released through its own `release` entry, then the wrapper is freed. -/
def ArrowArrayStreamWrapper.dtor (s : Addr) (w : World) : World :=
  match findStream s w.streams with
  | none => w
  | some d =>
    let w1 := if d.release = nullptr then w else w.log (Event.stream_release d.release s)
    { w1 with streams := removeStream s w1.streams }

/-! ## The adapter class (main.cpp lines 16-62) -/

/-- Address of the static member `ArrowStreamFactory::CreateStream`. -/
def CreateStream_ptr : FnPtr := 4096

/-- Address of the static member `ArrowStreamFactory::GetSchema`. -/
def GetSchema_ptr : FnPtr := 8192

/-- Method `GetStream` of main.cpp lines 31-40: a fresh wrapper, then
`this->create(this->private_data, &stream_wrapper->arrow_array_stream)`;
the wrapper is returned to the caller, who owns it. -/
def ArrowStreamFactory.GetStream (E : Env) (self : ArrowStreamFactory) (w : World) :
    Addr × World :=
  let (stream_wrapper, w1) := make_unique_ArrowArrayStreamWrapper w
  let w2 := w1.log (Event.create_call self.create self.private_data stream_wrapper)
  let w3 := { w2 with streams :=
                writeStream stream_wrapper (E.producer self.create self.private_data) w2.streams }
  (stream_wrapper, w3)

/-- Static member `CreateStream` of main.cpp lines 42-49: recover the adapter
from the opaque integer and return `GetStream()`; `parameters` is not read. -/
def ArrowStreamFactory.CreateStream (E : Env) (this_ptr : Addr)
    (_parameters : ArrowStreamParameters) (w : World) : Except Fault Addr × World :=
  match w.factory_at this_ptr with
  | none => (Except.error Fault.undefined, w)
  | some factory =>
    let (stream_wrapper, w1) := factory.GetStream E w
    (Except.ok stream_wrapper, w1)

/-- Static member `GetSchema` of main.cpp lines 51-61: recover the adapter,
`GetStream()`, call the stream's own `get_schema` on `schema`; the local
`stream_wrapper` is destroyed at scope exit. -/
def ArrowStreamFactory.GetSchema (E : Env) (factory_ptr : Addr) (schema : Addr) (w : World) :
    Except Fault Unit × World :=
  match w.factory_at factory_ptr with
  | none => (Except.error Fault.undefined, w)
  | some factory =>
    let (stream_wrapper, w1) := factory.GetStream E w
    match findStream stream_wrapper w1.streams with
    | none => (Except.error Fault.undefined, w1)
    | some d =>
      if d.get_schema = nullptr then (Except.error Fault.undefined, w1)
      else
        let w2 := w1.log (Event.stream_get_schema d.get_schema stream_wrapper schema)
        (Except.ok (), ArrowArrayStreamWrapper.dtor stream_wrapper w2)

/-! ## The engine, as far as the bridge depends on it

The engine is an external collaborator.  The definitions of this section are
written from its contract: open/connect/disconnect/close primitives, a SQL
execution primitive yielding a printable result, a table function registered
from three opaque-integer parameters and materialised as a named view, and a
per-connection dependency registry keyed by string that retains shared
ownership. -/

/-- The context of the first live connection with a handle. -/
def findContext (conn : Addr) : List (Addr × ClientContext) → Option ClientContext
  | [] => none
  | (a, ctx) :: rest => if a = conn then some ctx else findContext conn rest

/-- Overwrite the context of the first live connection with a handle. -/
def writeContext (conn : Addr) (ctx : ClientContext) :
    List (Addr × ClientContext) → List (Addr × ClientContext)
  | [] => []
  | (a, old) :: rest =>
    if a = conn then (a, ctx) :: rest else (a, old) :: writeContext conn ctx rest

/-- Delete the first live connection with a handle. -/
def removeContext (conn : Addr) : List (Addr × ClientContext) → List (Addr × ClientContext)
  | [] => []
  | (a, ctx) :: rest => if a = conn then rest else (a, ctx) :: removeContext conn rest

/-- The view of a given name, if any. -/
def findView (name : String) : List View → Option View
  | [] => none
  | v :: vs => if v.name = name then some v else findView name vs

/-- Bind a name to a view, replacing the view of that name if there is one. -/
def putView (v : View) : List View → List View
  | [] => [v]
  | u :: us => if u.name = v.name then v :: us else u :: putView v us

/-- The vector stored under a key of the dependency registry (empty when absent). -/
def depsAt (key : String) : List (String × List Addr) → List Addr
  | [] => []
  | (k, v) :: rest => if k = key then v else depsAt key rest

/-- Statement `external_dependencies[key].push_back(p)`: `operator[]` creates
the entry when the key is absent, `push_back` appends. -/
def deps_push_back (key : String) (p : Addr) :
    List (String × List Addr) → List (String × List Addr)
  | [] => [(key, [p])]
  | (k, v) :: rest =>
    if k = key then (k, v ++ [p]) :: rest else (k, v) :: deps_push_back key p rest

/-- Destroy a vector of shared owners, first to last. -/
def release_all : List Addr → World → World
  | [], w => w
  | p :: ps, w => release_all ps (shared_ptr_release p w)

/-- Destroy a dependency registry: every vector of every key. -/
def release_deps : List (String × List Addr) → World → World
  | [], w => w
  | (_, v) :: rest, w => release_deps rest (release_all v w)

/-- Modelled from the spec: `duckdb_open(path, out)` of the engine's C API (not
under src/), the "database open" primitive.  It is a C function: failure is
reported through the returned status code only.  Returns the status code and
the new content of `*out`, which is written only on success. -/
def duckdb_open (E : Env) (path : Option String) (out : Addr) (w : World) :
    duckdb_state × Addr × World :=
  let w0 := w.log (Event.duckdb_open path)
  if E.open_ok then
    (duckdb_state.DuckDBSuccess, w0.next,
     { w0 with next := w0.next + 1, databases := w0.next :: w0.databases })
  else (duckdb_state.DuckDBError, out, w0)

/-- Modelled from the spec: `duckdb_connect(database, out)` of the engine's C API
(not under src/), the "connect" primitive: a new connection with an empty view
table and an empty dependency registry, bound to `database`.  Returns the
status code and the new content of `*out`, written only on success.  A handle
that is not an open database makes the call fail. -/
def duckdb_connect (E : Env) (database : Addr) (out : Addr) (w : World) :
    duckdb_state × Addr × World :=
  let w0 := w.log (Event.duckdb_connect database)
  if E.connect_ok ∧ database ∈ w0.databases then
    let ctx : ClientContext := { db := database, views := [], external_dependencies := [] }
    (duckdb_state.DuckDBSuccess, w0.next,
     { w0 with next := w0.next + 1, connections := (w0.next, ctx) :: w0.connections })
  else (duckdb_state.DuckDBError, out, w0)

/-- Modelled from the spec: `duckdb_disconnect(&conn)` of the engine's C API (not
under src/).  Deleting the connection destroys its context, and with it the
dependency registry: every shared owner the registry holds is released ("last
release is triggered by the collaborator's own teardown").  The handle is
nulled.  On a handle that is no live connection nothing is torn down.  Returns
the new content of the handle. -/
def duckdb_disconnect (conn : Addr) (w : World) : Addr × World :=
  let w0 := w.log (Event.duckdb_disconnect conn)
  match findContext conn w0.connections with
  | none => (nullptr, w0)
  | some ctx =>
    let w1 := { w0 with connections := removeContext conn w0.connections }
    (nullptr, release_deps ctx.external_dependencies w1)

/-- Modelled from the spec: `duckdb_close(&db)` of the engine's C API (not under
src/): the database is deleted and the handle nulled. -/
def duckdb_close (db : Addr) (w : World) : Addr × World :=
  let w0 := w.log (Event.duckdb_close db)
  (nullptr, { w0 with databases := w0.databases.erase db })

/-- The engine calling a schema-fetch entry point it was given as an opaque
integer: control reaches `ArrowStreamFactory::GetSchema` exactly when the
integer is that function's address. -/
def call_get_schema (E : Env) (fn : FnPtr) (factory_ptr : Addr) (schema : Addr) (w : World) :
    Except Fault Unit × World :=
  if fn = GetSchema_ptr then ArrowStreamFactory.GetSchema E factory_ptr schema w
  else (Except.error Fault.undefined, w)

/-- The engine calling a stream-producer entry point it was given as an opaque
integer: control reaches `ArrowStreamFactory::CreateStream` exactly when the
integer is that function's address. -/
def call_produce (E : Env) (fn : FnPtr) (factory_ptr : Addr)
    (parameters : ArrowStreamParameters) (w : World) : Except Fault Addr × World :=
  if fn = CreateStream_ptr then ArrowStreamFactory.CreateStream E factory_ptr parameters w
  else (Except.error Fault.undefined, w)

/-- Modelled from the spec: binding of the engine's streaming table function (not
under src/), "a table-valued function from three opaque-integer parameters
(instance handle, stream-producer trampoline, schema-fetch trampoline)": the
schema is fetched once through the third parameter. -/
def arrow_scan_bind (E : Env) (params : List Value) (w : World) : Except Fault Unit × World :=
  match params with
  | [Value.POINTER factory_ptr, Value.POINTER _, Value.POINTER get_schema] =>
    let (schema, w1) := w.alloc
    call_get_schema E get_schema factory_ptr schema w1
  | _ => (Except.error (Fault.thrown "Binder Error"), w)

/-- Modelled from the spec: one scan of the engine's streaming table function (not
under src/): a stream is produced through the second parameter, pulled through
its `get_next`, and its wrapper is destroyed when the scan ends. -/
def arrow_scan_run (E : Env) (params : List Value) (parameters : ArrowStreamParameters)
    (w : World) : Except Fault Unit × World :=
  match params with
  | [Value.POINTER factory_ptr, Value.POINTER produce, Value.POINTER _] =>
    match call_produce E produce factory_ptr parameters w with
    | (Except.error f, w1) => (Except.error f, w1)
    | (Except.ok stream, w1) =>
      match findStream stream w1.streams with
      | none => (Except.error Fault.undefined, w1)
      | some d =>
        if d.get_next = nullptr then (Except.error Fault.undefined, w1)
        else
          let w2 := w1.log (Event.stream_get_next d.get_next stream)
          (Except.ok (), ArrowArrayStreamWrapper.dtor stream w2)
  | _ => (Except.error (Fault.thrown "Binder Error"), w)

/-- Modelled from the spec: `Connection::TableFunction(fname, values)` of the engine
(not under src/): "the engine's generic streaming-table-function mechanism",
which binds the function to obtain a relation and may throw. -/
def Connection.TableFunction (E : Env) (conn : Addr) (fname : String) (values : List Value)
    (w : World) : Except Fault Relation × World :=
  let w0 := w.log (Event.TableFunction conn fname values)
  match findContext conn w0.connections with
  | none => (Except.error Fault.undefined, w0)
  | some _ =>
    if E.table_function_fault fname values = some BindFault.before_bind then
      (Except.error (Fault.thrown "TableFunction"), w0)
    else if fname = "arrow_scan" then
      match arrow_scan_bind E values w0 with
      | (Except.error f, w1) => (Except.error f, w1)
      | (Except.ok _, w1) =>
        if E.table_function_fault fname values = some BindFault.after_bind then
          (Except.error (Fault.thrown "TableFunction"), w1)
        else (Except.ok { fname := fname, params := values }, w1)
    else (Except.error (Fault.thrown "Catalog Error"), w0)

/-- Modelled from the spec: `Relation::CreateView(name, replace, temporary)` of the
engine (not under src/): "materialize it as a named view"; an existing view of
that name is replaced when `replace` is set, and is an error otherwise. -/
def Relation.CreateView (E : Env) (conn : Addr) (self : Relation) (name : String)
    (replace : Bool) (temporary : Bool) (w : World) : Except Fault Relation × World :=
  let w0 := w.log (Event.CreateView conn name replace temporary)
  match findContext conn w0.connections with
  | none => (Except.error Fault.undefined, w0)
  | some ctx =>
    if E.create_view_ok name = false then (Except.error (Fault.thrown "CreateView"), w0)
    else if (findView name ctx.views).isSome ∧ replace = false then
      (Except.error (Fault.thrown "Catalog Error"), w0)
    else
      let v : View := { name := name, relation := self, temporary := temporary }
      (Except.ok self,
       { w0 with connections :=
           writeContext conn { ctx with views := putView v ctx.views } w0.connections })

/-- Modelled from the spec: the engine scanning the views a statement reads, in
order (not under src/): each view is bound (schema fetch) and scanned once.  A
missing view ends the statement with an engine-formatted error. -/
def scan_views (E : Env) (views : List View) (parameters : ArrowStreamParameters) :
    List String → World → Except Fault (Option String) × World
  | [], w => (Except.ok none, w)
  | name :: rest, w =>
    match findView name views with
    | none => (Except.ok (some "Catalog Error"), w)
    | some v =>
      match arrow_scan_bind E v.relation.params w with
      | (Except.error f, w1) => (Except.error f, w1)
      | (Except.ok _, w1) =>
        match arrow_scan_run E v.relation.params parameters w1 with
        | (Except.error f, w2) => (Except.error f, w2)
        | (Except.ok _, w2) => scan_views E views parameters rest w2

/-- Modelled from the spec: `Connection::Query(sql)` of the engine (not under
src/), the "SQL execution primitive yielding a printable result".  It does not
throw: a rejected statement, a missing view or an exception raised while
executing yields an error result. -/
def Connection.Query (E : Env) (conn : Addr) (sql : String) (w : World) :
    Except Fault QueryResult × World :=
  let w0 := w.log (Event.Query conn sql)
  match findContext conn w0.connections with
  | none => (Except.error Fault.undefined, w0)
  | some ctx =>
    match E.plan sql with
    | none => (Except.ok (QueryResult.error "Parser Error"), w0)
    | some names =>
      match scan_views E ctx.views (E.pushdown sql) names w0 with
      | (Except.error (Fault.thrown msg), w1) => (Except.ok (QueryResult.error msg), w1)
      | (Except.error Fault.undefined, w1) => (Except.error Fault.undefined, w1)
      | (Except.ok (some msg), w1) => (Except.ok (QueryResult.error msg), w1)
      | (Except.ok none, w1) => (Except.ok (QueryResult.rows names), w1)

/-- Modelled from the spec: `QueryResult::Print()` of the engine (not under src/):
one rendering of the result is written to standard output. -/
def QueryResult.Print (self : QueryResult) (w : World) : World :=
  let w0 := w.log (Event.Print self)
  { w0 with stdout := w0.stdout ++ [self] }

/-! ## The C entry points (main.cpp lines 64-102) -/

/-- Function `destroy` of main.cpp lines 66-70.  `db` and `conn` are the contents
of the two handle cells; their new contents are returned. -/
def destroy (db : Addr) (conn : Addr) (w : World) : (Addr × Addr) × World :=
  let (conn1, w1) := duckdb_disconnect conn w
  let (db1, w2) := duckdb_close db w1
  ((db1, conn1), w2)

/-- Function `new_in_memory` of main.cpp lines 72-76.  `db_out` and `conn_out`
are the initial contents of the two out-cells; the result is the outcome the
caller observes (the function is `void` and its callees do not throw), the
final contents of the two cells, and the new state.  Both status codes are
discarded, as in the source. -/
def new_in_memory (E : Env) (db_out : Addr) (conn_out : Addr) (w : World) :
    Except Fault Unit × (Addr × Addr) × World :=
  let (_, db1, w1) := duckdb_open E none db_out w
  let (_, conn1, w2) := duckdb_connect E db1 conn_out w1
  (Except.ok (), (db1, conn1), w2)

/-- Function `query` of main.cpp lines 78-82: `conn->Query(sql)->Print()`. -/
def query (E : Env) (connection : Addr) (sql : String) (w : World) : Except Fault Unit × World :=
  let conn := connection
  match Connection.Query E conn sql w with
  | (Except.error f, w1) => (Except.error f, w1)
  | (Except.ok result, w1) => (Except.ok (), result.Print w1)

/-- Exit from `register_arrow_stream` by a fault.  main.cpp has no handler of its
own.  A C++ exception unwinds the stack, destroying the local `factory`, only
when some caller catches it; when none does, the runtime calls
`std::terminate` with the stack as it is (the usual two-phase behaviour), no
destructor runs, and the state given is the one the process ends in.  After
undefined behaviour nothing is guaranteed and the state is left as it is. -/
def exit_by_fault (E : Env) (f : Fault) (factory : Addr) (w : World) :
    Except Fault Unit × World :=
  match f with
  | Fault.thrown msg =>
    if E.caller_catches then (Except.error (Fault.thrown msg), shared_ptr_release factory w)
    else (Except.error (Fault.thrown msg), w)
  | Fault.undefined => (Except.error Fault.undefined, w)

/-- Function `register_arrow_stream` of main.cpp lines 84-101.
* line 86: `make_shared`, the local `factory` is the first owner;
* lines 90-95: the three `POINTER` values, in this order;
* line 97: `conn->TableFunction("arrow_scan", params)`;
* line 98: `table->CreateView(name, true, true)`;
* line 100: `dynamic_pointer_cast` makes one more owner, which `push_back` moves
  into the vector under `"konbert"`;
* on normal exit the local `factory` is released (scope exit); the other locals
  own no adapter;
* there is no `try`: an exception of line 97 or 98 leaves the function as
  `exit_by_fault` describes. -/
def register_arrow_stream (E : Env) (connection : Addr) (name : String)
    (create : create_arrow_stream) (drop : drop_arrow_stream_factory) (private_data : Addr)
    (w : World) : Except Fault Unit × World :=
  let (factory, w1) := make_shared create drop private_data w
  let conn := connection
  let params : List Value :=
    [Value.POINTER factory, Value.POINTER CreateStream_ptr, Value.POINTER GetSchema_ptr]
  match Connection.TableFunction E conn "arrow_scan" params w1 with
  | (Except.error f, w2) => exit_by_fault E f factory w2
  | (Except.ok table, w2) =>
    match Relation.CreateView E conn table name true true w2 with
    | (Except.error f, w3) => exit_by_fault E f factory w3
    | (Except.ok _, w3) =>
      match findContext conn w3.connections with
      | none => (Except.error Fault.undefined, w3)
      | some ctx =>
        let w4 := shared_ptr_copy factory w3
        let ctx1 := { ctx with external_dependencies :=
                        deps_push_back "konbert" factory ctx.external_dependencies }
        let w5 := { w4 with connections := writeContext conn ctx1 w4.connections }
        (Except.ok (), shared_ptr_release factory w5)

/-! ## Reading a trace -/

/-- The `(callback, private_data)` pairs of the release-callback invocations of a trace. -/
def drops : List Event → List (FnPtr × Addr)
  | [] => []
  | Event.drop_call fn pd :: es => (fn, pd) :: drops es
  | _ :: es => drops es

/-- The `(callback, private_data)` pairs of the producer-callback invocations of a trace. -/
def creates : List Event → List (FnPtr × Addr)
  | [] => []
  | Event.create_call fn pd _ :: es => (fn, pd) :: creates es
  | _ :: es => creates es

/-- Whether an event is a call into the engine's API. -/
def Event.isApi : Event → Bool
  | Event.duckdb_open _ => true
  | Event.duckdb_connect _ => true
  | Event.duckdb_disconnect _ => true
  | Event.duckdb_close _ => true
  | Event.Query _ _ => true
  | Event.Print _ => true
  | Event.TableFunction _ _ _ => true
  | Event.CreateView _ _ _ _ => true
  | _ => false

/-- The engine API calls of a trace, in order. -/
def apiCalls (t : List Event) : List Event := t.filter Event.isApi

/-- A producer callback conforms to the stream interface for a private state when
the descriptor it writes has its three entry points set. -/
def Env.conforming (E : Env) (fn : FnPtr) (private_data : Addr) : Prop :=
  (E.producer fn private_data).get_schema ≠ nullptr ∧
  (E.producer fn private_data).get_next ≠ nullptr ∧
  (E.producer fn private_data).release ≠ nullptr

instance (E : Env) (fn : FnPtr) (private_data : Addr) : Decidable (E.conforming fn private_data) := by
  unfold Env.conforming; infer_instance

/-- An engine and host used to evaluate the definitions: every engine call
succeeds, `select * from t` scans the view `t`, `select * from u` scans `u`,
any other text is rejected, every producer writes a full descriptor, and the
caller catches the engine's exceptions. -/
def sampleEnv : Env :=
  { open_ok := true, connect_ok := true, table_function_fault := fun _ _ => none,
    create_view_ok := fun _ => true,
    plan := fun sql =>
      if sql = "select * from t" then some ["t"]
      else if sql = "select * from u" then some ["u"] else none,
    pushdown := fun _ => { projected_columns := { projection_map := [], columns := [] },
                           filters := nullptr },
    producer := fun _ pd => { get_schema := 11, get_next := 12, release := 13,
                              private_data := pd },
    caller_catches := true }

/-- The sample engine, except that opening a database fails. -/
def failingOpenEnv : Env := { sampleEnv with open_ok := false }

/-! ## Derived notions used in the statements -/

/-- The relation `CallbackStep w w1`: the state `w1` is reached from `w` by calls of producer
and stream callbacks only; no engine call, no release callback, nothing
printed, and adapters and connections are untouched. -/
def CallbackStep (w w1 : World) : Prop :=
  ∃ d, w1.trace = w.trace ++ d ∧ apiCalls d = [] ∧ drops d = [] ∧
    w1.stdout = w.stdout ∧ w1.heap = w.heap ∧ w1.connections = w.connections

/-- The three parameters `register_arrow_stream` builds for an adapter. -/
def scanParams (factory : Addr) : List Value :=
  [Value.POINTER factory, Value.POINTER CreateStream_ptr, Value.POINTER GetSchema_ptr]

/-- The view `register_arrow_stream` creates for an adapter. -/
def scanView (name : String) (factory : Addr) : View :=
  { name := name, relation := { fname := "arrow_scan", params := scanParams factory },
    temporary := true }

/-- A connection context after one more registration: the view is bound (or
rebound) and the adapter appended to the registry under `"konbert"`. -/
def registeredContext (ctx : ClientContext) (name : String) (factory : Addr) : ClientContext :=
  { db := ctx.db, views := putView (scanView name factory) ctx.views,
    external_dependencies := deps_push_back "konbert" factory ctx.external_dependencies }

/-- The events of a successful `register_arrow_stream` whose adapter is allocated
at `a`: the table-function call, one schema fetch while binding, the view creation. -/
def registrationEvents (E : Env) (conn : Addr) (name : String) (create : create_arrow_stream)
    (private_data : Addr) (a : Addr) : List Event :=
  [Event.TableFunction conn "arrow_scan" (scanParams a),
   Event.create_call create private_data (a + 2),
   Event.stream_get_schema (E.producer create private_data).get_schema (a + 2) (a + 1),
   Event.stream_release (E.producer create private_data).release (a + 2),
   Event.CreateView conn name true true]

/-- The state a successful `register_arrow_stream` leaves: one adapter more, with
one owner; the view bound and the adapter in the registry; the schema fetched
once while binding; two engine calls. -/
def registeredWorld (E : Env) (conn : Addr) (name : String) (create : create_arrow_stream)
    (drop : drop_arrow_stream_factory) (private_data : Addr) (w : World) (ctx : ClientContext) :
    World :=
  { next := w.next + 3,
    heap := { addr := w.next,
              obj := { create := create, drop := drop, private_data := private_data },
              use_count := 1 } :: w.heap,
    streams := w.streams,
    databases := w.databases,
    connections := writeContext conn (registeredContext ctx name w.next) w.connections,
    stdout := w.stdout,
    trace := w.trace ++ registrationEvents E conn name create private_data w.next }

/-- The events of a statement that scans one registered view: the engine call,
one schema fetch while binding, one stream produced, pulled and released. -/
def scanEvents (E : Env) (conn : Addr) (sql : String) (obj : ArrowStreamFactory) (n : Addr) :
    List Event :=
  [Event.Query conn sql,
   Event.create_call obj.create obj.private_data (n + 1),
   Event.stream_get_schema (E.producer obj.create obj.private_data).get_schema (n + 1) n,
   Event.stream_release (E.producer obj.create obj.private_data).release (n + 1),
   Event.create_call obj.create obj.private_data (n + 2),
   Event.stream_get_next (E.producer obj.create obj.private_data).get_next (n + 2),
   Event.stream_release (E.producer obj.create obj.private_data).release (n + 2)]

/-- The state in which an exception leaves the body of `register_arrow_stream`:
the adapter built by the call is on the heap with the local `factory` as its
only owner, `n` addresses were allocated and the events `delta` logged. -/
def thrownWorld (w : World) (create : create_arrow_stream) (drop : drop_arrow_stream_factory)
    (private_data : Addr) (n : Nat) (delta : List Event) : World :=
  { w with next := w.next + n,
           heap := { addr := w.next,
                     obj := { create := create, drop := drop, private_data := private_data },
                     use_count := 1 } :: w.heap,
           trace := w.trace ++ delta }

/-- The sample engine, except that view creation throws. -/
def failingViewEnv : Env := { sampleEnv with create_view_ok := fun _ => false }

/-- The sample engine, except that the table-function call throws. -/
def failingTableEnv : Env :=
  { sampleEnv with table_function_fault := fun _ _ => some BindFault.before_bind }

/-- The sample engine, except that view creation throws and no caller catches. -/
def uncaughtViewEnv : Env := { failingViewEnv with caller_catches := false }

/-- Heap-level reading of `shared_ptr_release`: the events it logs and the heap
it leaves. -/
def releaseCell (p : Addr) (h : List SharedFactory) : List Event × List SharedFactory :=
  match findCell p h with
  | none => ([], h)
  | some c =>
    if c.use_count ≤ 1 then ([Event.drop_call c.obj.drop c.obj.private_data], removeCell p h)
    else ([], adjustCell p (fun n => n - 1) h)

/-- Heap-level reading of `release_all`. -/
def releaseCells : List Addr → List SharedFactory → List Event × List SharedFactory
  | [], h => ([], h)
  | p :: ps, h =>
    ((releaseCell p h).1 ++ (releaseCells ps (releaseCell p h).2).1,
     (releaseCells ps (releaseCell p h).2).2)

/-- Heap-level reading of `release_deps`. -/
def releaseRegistry :
    List (String × List Addr) → List SharedFactory → List Event × List SharedFactory
  | [], h => ([], h)
  | (_, v) :: rest, h =>
    ((releaseCells v h).1 ++ (releaseRegistry rest (releaseCells v h).2).1,
     (releaseRegistry rest (releaseCells v h).2).2)

/-! ## Trace lemmas -/

theorem drops_append (a b : List Event) : drops (a ++ b) = drops a ++ drops b := by
  induction a with
  | nil => rfl
  | cons e es ih => cases e <;> simp [drops, ih]

theorem creates_append (a b : List Event) : creates (a ++ b) = creates a ++ creates b := by
  induction a with
  | nil => rfl
  | cons e es ih => cases e <;> simp [creates, ih]

theorem apiCalls_append (a b : List Event) : apiCalls (a ++ b) = apiCalls a ++ apiCalls b := by
  simp [apiCalls]

/-- Releasing one shared owner appends at most one event, a release-callback call. -/
theorem shared_ptr_release_trace (p : Addr) (w : World) :
    ∃ d, (shared_ptr_release p w).trace = w.trace ++ d ∧ apiCalls d = [] ∧ creates d = [] := by
  unfold shared_ptr_release
  cases h : findCell p w.heap with
  | none => exact ⟨[], by simp, rfl, rfl⟩
  | some c =>
    by_cases hc : c.use_count ≤ 1
    · exact ⟨[Event.drop_call c.obj.drop c.obj.private_data],
        by simp [hc, ArrowStreamFactory.dtor, World.log], rfl, rfl⟩
    · exact ⟨[], by simp [hc], rfl, rfl⟩

theorem release_all_trace (ps : List Addr) (w : World) :
    ∃ d, (release_all ps w).trace = w.trace ++ d ∧ apiCalls d = [] ∧ creates d = [] := by
  induction ps generalizing w with
  | nil => exact ⟨[], by simp [release_all], rfl, rfl⟩
  | cons p ps ih =>
    obtain ⟨d1, h1, a1, c1⟩ := shared_ptr_release_trace p w
    obtain ⟨d2, h2, a2, c2⟩ := ih (shared_ptr_release p w)
    exact ⟨d1 ++ d2, by simp [release_all, h2, h1], by simp [apiCalls_append, a1, a2],
      by simp [creates_append, c1, c2]⟩

theorem release_deps_trace (deps : List (String × List Addr)) (w : World) :
    ∃ d, (release_deps deps w).trace = w.trace ++ d ∧ apiCalls d = [] ∧ creates d = [] := by
  induction deps generalizing w with
  | nil => exact ⟨[], by simp [release_deps], rfl, rfl⟩
  | cons kv rest ih =>
    obtain ⟨k, v⟩ := kv
    obtain ⟨d1, h1, a1, c1⟩ := release_all_trace v w
    obtain ⟨d2, h2, a2, c2⟩ := ih (release_all v w)
    exact ⟨d1 ++ d2, by simp [release_deps, h2, h1], by simp [apiCalls_append, a1, a2],
      by simp [creates_append, c1, c2]⟩

/-- What `duckdb_disconnect` appends to the trace: its own call, then events of
the registry teardown, which are neither engine calls nor producer calls. -/
theorem duckdb_disconnect_trace (conn : Addr) (w : World) :
    ∃ d, (duckdb_disconnect conn w).2.trace = w.trace ++ Event.duckdb_disconnect conn :: d ∧
      apiCalls d = [] ∧ creates d = [] := by
  unfold duckdb_disconnect
  cases h : findContext conn (w.log (Event.duckdb_disconnect conn)).connections with
  | none => exact ⟨[], by simp only [h]; simp [World.log], rfl, rfl⟩
  | some ctx =>
    obtain ⟨d, hd, ha, hc⟩ := release_deps_trace ctx.external_dependencies
      { w.log (Event.duckdb_disconnect conn) with
        connections := removeContext conn (w.log (Event.duckdb_disconnect conn)).connections }
    refine ⟨d, ?_, ha, hc⟩
    simp only [h]
    rw [hd]
    simp [World.log]

theorem CallbackStep.refl (w : World) : CallbackStep w w :=
  ⟨[], by simp, rfl, rfl, rfl, rfl, rfl⟩

theorem CallbackStep.trans {w w1 w2 : World} (h1 : CallbackStep w w1) (h2 : CallbackStep w1 w2) :
    CallbackStep w w2 := by
  obtain ⟨d1, t1, a1, r1, s1, p1, c1⟩ := h1
  obtain ⟨d2, t2, a2, r2, s2, p2, c2⟩ := h2
  exact ⟨d1 ++ d2, by simp [t2, t1], by simp [apiCalls_append, a1, a2],
    by simp [drops_append, r1, r2], s2.trans s1, p2.trans p1, c2.trans c1⟩

theorem GetStream_step (E : Env) (factory : ArrowStreamFactory) (w : World) :
    CallbackStep w (factory.GetStream E w).2 :=
  ⟨[Event.create_call factory.create factory.private_data w.next],
    by simp [ArrowStreamFactory.GetStream, make_unique_ArrowArrayStreamWrapper, World.log],
    rfl, rfl, rfl, rfl, rfl⟩

theorem ArrowArrayStreamWrapper_dtor_step (s : Addr) (w : World) :
    CallbackStep w (ArrowArrayStreamWrapper.dtor s w) := by
  unfold ArrowArrayStreamWrapper.dtor
  cases findStream s w.streams with
  | none => exact CallbackStep.refl w
  | some d =>
    by_cases hr : d.release = nullptr
    · exact ⟨[], by simp [hr], rfl, rfl, by simp [hr], by simp [hr], by simp [hr]⟩
    · exact ⟨[Event.stream_release d.release s], by simp [hr, World.log], rfl, rfl,
        by simp [hr, World.log], by simp [hr, World.log], by simp [hr, World.log]⟩

theorem log_callback_step (w : World) (e : Event) (ha : e.isApi = false) (hd : drops [e] = []) :
    CallbackStep w (w.log e) :=
  ⟨[e], rfl, by simp [apiCalls, ha], hd, rfl, rfl, rfl⟩

theorem CreateStream_step (E : Env) (this_ptr : Addr) (parameters : ArrowStreamParameters)
    (w : World) : CallbackStep w (ArrowStreamFactory.CreateStream E this_ptr parameters w).2 := by
  unfold ArrowStreamFactory.CreateStream
  cases w.factory_at this_ptr with
  | none => exact CallbackStep.refl w
  | some factory => exact GetStream_step E factory w

theorem GetSchema_step (E : Env) (factory_ptr schema : Addr) (w : World) :
    CallbackStep w (ArrowStreamFactory.GetSchema E factory_ptr schema w).2 := by
  unfold ArrowStreamFactory.GetSchema
  cases w.factory_at factory_ptr with
  | none => exact CallbackStep.refl w
  | some factory =>
    have h1 := GetStream_step E factory w
    simp only
    cases findStream (factory.GetStream E w).1 (factory.GetStream E w).2.streams with
    | none => exact h1
    | some d =>
      by_cases hg : d.get_schema = nullptr
      · simpa [hg] using h1
      · simp only [hg, if_false]
        exact h1.trans ((log_callback_step _ (Event.stream_get_schema _ _ _) rfl rfl).trans
          (ArrowArrayStreamWrapper_dtor_step _ _))

theorem arrow_scan_bind_step (E : Env) (params : List Value) (w : World) :
    CallbackStep w (arrow_scan_bind E params w).2 := by
  unfold arrow_scan_bind
  split
  · simp only [World.alloc, call_get_schema]
    split
    · exact CallbackStep.trans ⟨[], by simp, rfl, rfl, rfl, rfl, rfl⟩ (GetSchema_step E _ _ _)
    · exact ⟨[], by simp, rfl, rfl, rfl, rfl, rfl⟩
  · exact CallbackStep.refl w

theorem arrow_scan_run_step (E : Env) (params : List Value) (parameters : ArrowStreamParameters)
    (w : World) : CallbackStep w (arrow_scan_run E params parameters w).2 := by
  unfold arrow_scan_run
  split
  · rename_i factory_ptr produce _
    have h1 : CallbackStep w (call_produce E produce factory_ptr parameters w).2 := by
      unfold call_produce
      split
      · exact CreateStream_step E _ _ _
      · exact CallbackStep.refl w
    revert h1
    cases call_produce E produce factory_ptr parameters w with
    | mk r w1 =>
      intro h1
      cases r with
      | error f => exact h1
      | ok stream =>
        simp only
        cases findStream stream w1.streams with
        | none => exact h1
        | some d =>
          by_cases hg : d.get_next = nullptr
          · simpa [hg] using h1
          · simp only [hg, if_false]
            exact h1.trans ((log_callback_step _ (Event.stream_get_next _ _) rfl rfl).trans
              (ArrowArrayStreamWrapper_dtor_step _ _))
  · exact CallbackStep.refl w

theorem scan_views_step (E : Env) (views : List View) (parameters : ArrowStreamParameters)
    (names : List String) (w : World) :
    CallbackStep w (scan_views E views parameters names w).2 := by
  induction names generalizing w with
  | nil => exact CallbackStep.refl w
  | cons name rest ih =>
    unfold scan_views
    cases findView name views with
    | none => exact CallbackStep.refl w
    | some v =>
      have h1 := arrow_scan_bind_step E v.relation.params w
      simp only
      generalize arrow_scan_bind E v.relation.params w = x1 at h1 ⊢
      obtain ⟨r1, w1⟩ := x1
      cases r1 with
      | error f => exact h1
      | ok u =>
        have h2 := arrow_scan_run_step E v.relation.params parameters w1
        simp only
        generalize arrow_scan_run E v.relation.params parameters w1 = x2 at h2 ⊢
        obtain ⟨r2, w2⟩ := x2
        cases r2 with
        | error f => exact h1.trans h2
        | ok u2 => exact (h1.trans h2).trans (ih w2)

/-- What `Connection::Query` does to the state: its own call is logged, then
callbacks only. -/
theorem Query_step (E : Env) (conn : Addr) (sql : String) (w : World) :
    CallbackStep (w.log (Event.Query conn sql)) (Connection.Query E conn sql w).2 := by
  unfold Connection.Query
  simp only
  cases findContext conn (w.log (Event.Query conn sql)).connections with
  | none => exact CallbackStep.refl _
  | some ctx =>
    cases E.plan sql with
    | none => exact CallbackStep.refl _
    | some names =>
      have h := scan_views_step E ctx.views (E.pushdown sql) names (w.log (Event.Query conn sql))
      revert h
      simp only
      cases scan_views E ctx.views (E.pushdown sql) names (w.log (Event.Query conn sql)) with
      | mk r w1 =>
        intro h
        cases r with
        | error f => cases f <;> exact h
        | ok m => cases m <;> exact h

/-- The only way `Connection::Query` fails to return a result is undefined behaviour. -/
theorem Query_does_not_throw (E : Env) (conn : Addr) (sql : String) (w : World) (msg : String) :
    (Connection.Query E conn sql w).1 ≠ Except.error (Fault.thrown msg) := by
  unfold Connection.Query
  simp only
  cases findContext conn (w.log (Event.Query conn sql)).connections with
  | none => simp
  | some ctx =>
    cases E.plan sql with
    | none => simp
    | some names =>
      simp only
      cases scan_views E ctx.views (E.pushdown sql) names (w.log (Event.Query conn sql)) with
      | mk r w1 =>
        cases r with
        | error f => cases f <;> simp
        | ok m => cases m <;> simp

/-! ## Lookup lemmas -/

theorem findContext_writeContext (conn : Addr) (ctx new : ClientContext)
    (conns : List (Addr × ClientContext)) (h : findContext conn conns = some ctx) :
    findContext conn (writeContext conn new conns) = some new := by
  induction conns with
  | nil => simp [findContext] at h
  | cons c rest ih =>
    obtain ⟨a, old⟩ := c
    by_cases ha : a = conn
    · simp [writeContext, findContext, ha]
    · simp [writeContext, findContext, ha] at h ⊢
      exact ih h

theorem writeContext_writeContext (conn : Addr) (x y : ClientContext)
    (conns : List (Addr × ClientContext)) :
    writeContext conn x (writeContext conn y conns) = writeContext conn x conns := by
  induction conns with
  | nil => rfl
  | cons c rest ih =>
    obtain ⟨a, old⟩ := c
    by_cases ha : a = conn
    · simp [writeContext, ha]
    · simp [writeContext, ha, ih]

theorem findView_putView (v : View) (views : List View) :
    findView v.name (putView v views) = some v := by
  induction views with
  | nil => simp [putView, findView]
  | cons u us ih =>
    by_cases hu : u.name = v.name
    · simp [putView, findView, hu]
    · simp [putView, findView, hu, ih]

theorem findView_putView_ne (v : View) (name : String) (views : List View)
    (hne : v.name ≠ name) : findView name (putView v views) = findView name views := by
  induction views with
  | nil => simp [putView, findView, hne]
  | cons u us ih =>
    by_cases hu : u.name = v.name
    · have hun : u.name ≠ name := by rw [hu]; exact hne
      simp [putView, findView, hu, hne, hun]
    · by_cases hn : u.name = name
      · have hnv : ¬ name = v.name := fun h => hne h.symm
        simp [putView, findView, hn, hnv]
      · simp [putView, findView, hu, hn, ih]

theorem depsAt_push_back (key : String) (p : Addr) (deps : List (String × List Addr)) :
    depsAt key (deps_push_back key p deps) = depsAt key deps ++ [p] := by
  induction deps with
  | nil => simp [deps_push_back, depsAt]
  | cons kv rest ih =>
    obtain ⟨k, v⟩ := kv
    by_cases hk : k = key
    · simp [deps_push_back, depsAt, hk]
    · simp [deps_push_back, depsAt, hk, ih]

/-! ## Registration, step by step -/

/-- A successful `register_arrow_stream`, computed in full: on a live connection,
with an engine whose table-function and view-creation calls succeed and a
conforming producer. -/
theorem register_arrow_stream_eq (E : Env) (conn : Addr) (name : String)
    (create : create_arrow_stream) (drop : drop_arrow_stream_factory) (private_data : Addr)
    (w : World) (ctx : ClientContext)
    (hconn : findContext conn w.connections = some ctx)
    (hfault : E.table_function_fault "arrow_scan" (scanParams w.next) = none)
    (hview : E.create_view_ok name = true)
    (hconf : E.conforming create private_data) :
    register_arrow_stream E conn name create drop private_data w
      = (Except.ok (), registeredWorld E conn name create drop private_data w ctx) := by
  obtain ⟨hs, _, hr⟩ := hconf
  simp only [scanParams] at hfault
  simp [register_arrow_stream, make_shared, Connection.TableFunction, World.log, hconn, hfault,
    arrow_scan_bind, World.alloc, call_get_schema, ArrowStreamFactory.GetSchema,
    World.factory_at, findCell, ArrowStreamFactory.GetStream,
    make_unique_ArrowArrayStreamWrapper, writeStream, findStream, hs, hr,
    ArrowArrayStreamWrapper.dtor, removeStream, Relation.CreateView, hview,
    findContext_writeContext conn ctx _ w.connections hconn, shared_ptr_copy, adjustCell,
    shared_ptr_release, writeContext_writeContext, scanParams, registeredContext, scanView,
    registeredWorld, registrationEvents]

/-- A successful `new_in_memory`, computed in full. -/
theorem new_in_memory_eq (E : Env) (db_out conn_out : Addr) (w : World)
    (hopen : E.open_ok = true) (hconnect : E.connect_ok = true) :
    new_in_memory E db_out conn_out w
      = (Except.ok (), (w.next, w.next + 1),
         { w with next := w.next + 2,
                  databases := w.next :: w.databases,
                  connections :=
                    (w.next + 1, { db := w.next, views := [], external_dependencies := [] })
                      :: w.connections,
                  trace := w.trace ++ [Event.duckdb_open none, Event.duckdb_connect w.next] }) := by
  simp [new_in_memory, duckdb_open, duckdb_connect, World.log, hopen, hconnect]

/-- A `query` whose statement scans one view registered by `register_arrow_stream`,
the adapter being live and its producer conforming, computed in full. -/
theorem query_scan_eq (E : Env) (conn : Addr) (sql name : String) (a : Addr)
    (obj : ArrowStreamFactory) (w : World) (ctx : ClientContext)
    (hconn : findContext conn w.connections = some ctx)
    (hview : findView name ctx.views = some (scanView name a))
    (hlive : w.factory_at a = some obj)
    (hplan : E.plan sql = some [name])
    (hconf : E.conforming obj.create obj.private_data) :
    query E conn sql w
      = (Except.ok (),
         { w with next := w.next + 3,
                  stdout := w.stdout ++ [QueryResult.rows [name]],
                  trace := w.trace ++ scanEvents E conn sql obj w.next
                             ++ [Event.Print (QueryResult.rows [name])] }) := by
  obtain ⟨hs, hn, hr⟩ := hconf
  simp only [World.factory_at] at hlive
  simp [query, Connection.Query, World.log, hconn, hplan, scan_views, hview, scanView,
    scanParams, arrow_scan_bind, World.alloc, call_get_schema, ArrowStreamFactory.GetSchema,
    World.factory_at, hlive, ArrowStreamFactory.GetStream, make_unique_ArrowArrayStreamWrapper,
    writeStream, findStream, hs, hn, hr, ArrowArrayStreamWrapper.dtor, removeStream,
    arrow_scan_run, call_produce, ArrowStreamFactory.CreateStream, QueryResult.Print,
    scanEvents]

theorem mem_deps_push_back (key : String) (a : Addr) (deps : List (String × List Addr))
    (kv : String × List Addr) (p : Addr) (hkv : kv ∈ deps_push_back key a deps) (hp : p ∈ kv.2) :
    p = a ∨ ∃ kv0 ∈ deps, p ∈ kv0.2 := by
  induction deps with
  | nil =>
    simp only [deps_push_back, List.mem_singleton] at hkv
    subst hkv
    left
    simpa using hp
  | cons d rest ih =>
    obtain ⟨k, v⟩ := d
    by_cases hk : k = key
    · simp only [deps_push_back, hk, if_true, List.mem_cons] at hkv
      rcases hkv with h | h
      · subst h
        rcases List.mem_append.mp hp with h1 | h1
        · exact Or.inr ⟨(k, v), List.mem_cons_self _ _, h1⟩
        · left
          simpa using h1
      · exact Or.inr ⟨kv, List.mem_cons_of_mem _ h, hp⟩
    · simp only [deps_push_back, hk, if_false, List.mem_cons] at hkv
      rcases hkv with h | h
      · subst h
        exact Or.inr ⟨(k, v), List.mem_cons_self _ _, hp⟩
      · rcases ih h with h1 | ⟨kv0, hkv0, hp0⟩
        · exact Or.inl h1
        · exact Or.inr ⟨kv0, List.mem_cons_of_mem _ hkv0, hp0⟩

/-! ## Teardown of a registry, at heap level -/

theorem shared_ptr_release_eq (p : Addr) (w : World) :
    shared_ptr_release p w
      = { w with heap := (releaseCell p w.heap).2,
                 trace := w.trace ++ (releaseCell p w.heap).1 } := by
  unfold shared_ptr_release releaseCell
  cases findCell p w.heap with
  | none => simp
  | some c =>
    by_cases hc : c.use_count ≤ 1
    · simp [hc, ArrowStreamFactory.dtor, World.log]
    · simp [hc]

theorem release_all_eq (ps : List Addr) (w : World) :
    release_all ps w
      = { w with heap := (releaseCells ps w.heap).2,
                 trace := w.trace ++ (releaseCells ps w.heap).1 } := by
  induction ps generalizing w with
  | nil => simp [release_all, releaseCells]
  | cons p ps ih => simp [release_all, releaseCells, ih, shared_ptr_release_eq]

theorem release_deps_eq (deps : List (String × List Addr)) (w : World) :
    release_deps deps w
      = { w with heap := (releaseRegistry deps w.heap).2,
                 trace := w.trace ++ (releaseRegistry deps w.heap).1 } := by
  induction deps generalizing w with
  | nil => simp [release_deps, releaseRegistry]
  | cons kv rest ih =>
    obtain ⟨k, v⟩ := kv
    simp [release_deps, releaseRegistry, ih, release_all_eq]

/-- The teardown done by `destroy` on a live connection, read at heap level. -/
theorem destroy_eq (db conn : Addr) (w : World) (ctx : ClientContext)
    (hconn : findContext conn w.connections = some ctx) :
    (destroy db conn w).2.trace
      = w.trace ++ ([Event.duckdb_disconnect conn]
          ++ (releaseRegistry ctx.external_dependencies w.heap).1 ++ [Event.duckdb_close db]) ∧
    (destroy db conn w).2.heap = (releaseRegistry ctx.external_dependencies w.heap).2 := by
  simp [destroy, duckdb_disconnect, duckdb_close, World.log, hconn, release_deps_eq]

/-- Releasing an owner of another adapter does not touch a cell in front of it. -/
theorem releaseCell_frame (p : Addr) (c : SharedFactory) (h : List SharedFactory)
    (hne : c.addr ≠ p) :
    releaseCell p (c :: h) = ((releaseCell p h).1, c :: (releaseCell p h).2) := by
  unfold releaseCell
  simp only [findCell, hne, if_false]
  cases findCell p h with
  | none => rfl
  | some d =>
    by_cases hd : d.use_count ≤ 1
    · simp [hd, removeCell, hne]
    · simp [hd, adjustCell, hne]

theorem releaseCells_frame (ps : List Addr) (c : SharedFactory) (h : List SharedFactory)
    (hne : ∀ p ∈ ps, p ≠ c.addr) :
    releaseCells ps (c :: h) = ((releaseCells ps h).1, c :: (releaseCells ps h).2) := by
  induction ps generalizing h with
  | nil => rfl
  | cons p ps ih =>
    have hp : c.addr ≠ p := fun e => hne p (List.mem_cons_self p ps) e.symm
    have hps : ∀ q ∈ ps, q ≠ c.addr := fun q hq => hne q (List.mem_cons_of_mem p hq)
    simp [releaseCells, releaseCell_frame p c h hp, ih _ hps]

theorem releaseCells_append (ps qs : List Addr) (h : List SharedFactory) :
    releaseCells (ps ++ qs) h
      = ((releaseCells ps h).1 ++ (releaseCells qs (releaseCells ps h).2).1,
         (releaseCells qs (releaseCells ps h).2).2) := by
  induction ps generalizing h with
  | nil => simp [releaseCells]
  | cons p ps ih => simp [releaseCells, ih]

/-- Releasing the only owner of the adapter in front of the heap. -/
theorem releaseCells_last_owner (c : SharedFactory) (h : List SharedFactory)
    (hone : c.use_count = 1) :
    releaseCells [c.addr] (c :: h)
      = ([Event.drop_call c.obj.drop c.obj.private_data], h) := by
  simp [releaseCells, releaseCell, findCell, removeCell, hone]

/-- Frame property of the teardown: a registry to which one adapter `c`, with
the registry as its only owner, was appended under `key`, is torn down like the
old registry, plus one call of the release callback of `c`. -/
theorem releaseRegistry_push_back (key : String) (c : SharedFactory)
    (deps : List (String × List Addr)) (h : List SharedFactory)
    (hone : c.use_count = 1)
    (hwf : ∀ kv ∈ deps, ∀ p ∈ kv.2, p ≠ c.addr) :
    (releaseRegistry (deps_push_back key c.addr deps) (c :: h)).2 = (releaseRegistry deps h).2 ∧
    (drops (releaseRegistry (deps_push_back key c.addr deps) (c :: h)).1).Perm
      (drops (releaseRegistry deps h).1 ++ [(c.obj.drop, c.obj.private_data)]) := by
  induction deps generalizing h with
  | nil =>
    simp [deps_push_back, releaseRegistry, releaseCells_last_owner c h hone, drops]
  | cons kv rest ih =>
    obtain ⟨k, v⟩ := kv
    have hv : ∀ p ∈ v, p ≠ c.addr := fun p hp => hwf (k, v) (List.mem_cons_self _ _) p hp
    have hrest : ∀ kv ∈ rest, ∀ p ∈ kv.2, p ≠ c.addr :=
      fun kv hkv => hwf kv (List.mem_cons_of_mem _ hkv)
    by_cases hk : k = key
    · simp only [deps_push_back, hk, if_true, releaseRegistry, releaseCells_append,
        releaseCells_frame v c h hv, releaseCells_last_owner c _ hone]
      refine ⟨trivial, ?_⟩
      simp only [drops_append, drops, List.append_assoc, List.nil_append, List.singleton_append]
      exact List.Perm.append_left _ (List.perm_append_singleton _ _).symm
    · simp only [deps_push_back, hk, if_false, releaseRegistry, releaseCells_frame v c h hv]
      obtain ⟨ih1, ih2⟩ := ih (releaseCells v h).2 hrest
      refine ⟨ih1, ?_⟩
      simp only [drops_append, List.append_assoc]
      exact List.Perm.append_left _ ih2

/-! ## The handle lifecycle -/

/-- C9: `destroy(db, conn)` makes exactly two engine calls, in this order: first
`duckdb_disconnect` on the connection handle, then `duckdb_close` on the
database handle.  Whatever happens in between (the events `released`, caused
by the teardown of the connection) is no engine call, so the database is never
closed before the connection is disconnected and each call happens once. -/
theorem destroy_disconnects_then_closes (db conn : Addr) (w : World) :
    ∃ released,
      (destroy db conn w).2.trace
        = w.trace ++ [Event.duckdb_disconnect conn] ++ released ++ [Event.duckdb_close db] ∧
      apiCalls released = [] ∧
      apiCalls ([Event.duckdb_disconnect conn] ++ released ++ [Event.duckdb_close db])
        = [Event.duckdb_disconnect conn, Event.duckdb_close db] := by
  obtain ⟨d, hd, ha, _⟩ := duckdb_disconnect_trace conn w
  refine ⟨d, ?_, ha, ?_⟩
  · simp only [destroy, duckdb_close, World.log]
    rw [hd]
    simp
  · rw [apiCalls_append, apiCalls_append, ha]
    rfl

/-- Counterexample to C7 as stated: with an engine whose `duckdb_open` fails, the engine
reports `DuckDBError`, yet `new_in_memory` returns normally, leaves both
out-cells as they were and has still called `duckdb_connect` on the unwritten
database cell; nothing reaches the caller. -/
theorem new_in_memory_discards_engine_failure :
    (duckdb_open failingOpenEnv none 77 World.init).1 = duckdb_state.DuckDBError ∧
    (new_in_memory failingOpenEnv 77 88 World.init).1 = Except.ok () ∧
    (new_in_memory failingOpenEnv 77 88 World.init).2.1 = (77, 88) ∧
    (new_in_memory failingOpenEnv 77 88 World.init).2.2.trace
      = [Event.duckdb_open none, Event.duckdb_connect 77] := by
  refine ⟨rfl, rfl, ?_, ?_⟩ <;> decide

/-- C7, amended: `new_in_memory` calls `duckdb_open` once with no path and then
`duckdb_connect` once on the content of the database out-cell, and always
returns normally: the two status codes are discarded.  When both engine calls
succeed, one database has been opened and exactly one connection, bound to that
database and holding no view and no dependency, has been created, and both
handles are in the out-cells.  When `duckdb_open` fails, the database out-cell
keeps its old content. -/
theorem new_in_memory_spec (E : Env) (db_out conn_out : Addr) (w : World) :
    (new_in_memory E db_out conn_out w).1 = Except.ok () ∧
    (new_in_memory E db_out conn_out w).2.2.trace
      = w.trace ++ [Event.duckdb_open none,
                    Event.duckdb_connect (new_in_memory E db_out conn_out w).2.1.1] ∧
    (E.open_ok = true → E.connect_ok = true →
      (new_in_memory E db_out conn_out w).2.1 = (w.next, w.next + 1) ∧
      (new_in_memory E db_out conn_out w).2.2.databases = w.next :: w.databases ∧
      (new_in_memory E db_out conn_out w).2.2.connections
        = (w.next + 1, { db := w.next, views := [], external_dependencies := [] })
            :: w.connections) ∧
    (E.open_ok = false → (new_in_memory E db_out conn_out w).2.1.1 = db_out) := by
  refine ⟨rfl, ?_, ?_, ?_⟩
  · simp only [new_in_memory, duckdb_open, duckdb_connect, World.log]
    split <;> split <;> simp
  · intro ho hc
    simp [new_in_memory, duckdb_open, duckdb_connect, World.log, ho, hc]
  · intro ho
    simp [new_in_memory, duckdb_open, duckdb_connect, World.log, ho]

/-- Instance of the above at the sample engine, from a fresh process. -/
theorem new_in_memory_spec_witness :
    (new_in_memory sampleEnv 0 0 World.init).2.1 = (1, 2) ∧
    (new_in_memory sampleEnv 0 0 World.init).2.2.databases = [1] ∧
    (new_in_memory sampleEnv 0 0 World.init).2.2.connections
      = [(2, { db := 1, views := [], external_dependencies := [] })] :=
  (new_in_memory_spec sampleEnv 0 0 World.init).2.2.1 rfl rfl

/-! ## The adapter -/

/-- C5: one call `GetSchema(adapter_ref, schema_out)` on a live adapter whose
producer conforms to the stream interface, in any state: the create callback is
called exactly once, with the adapter's `private_data` and a fresh descriptor;
that stream's `get_schema` is called exactly once, on `schema_out`; the stream
is released and its wrapper freed before the call returns (the live streams are
those of before); the adapter is untouched and its drop callback is not called. -/
theorem GetSchema_spec (E : Env) (factory_ptr schema : Addr) (w : World)
    (factory : ArrowStreamFactory) (hlive : w.factory_at factory_ptr = some factory)
    (hconf : E.conforming factory.create factory.private_data) :
    (ArrowStreamFactory.GetSchema E factory_ptr schema w).1 = Except.ok () ∧
    (ArrowStreamFactory.GetSchema E factory_ptr schema w).2.trace
      = w.trace ++
        [Event.create_call factory.create factory.private_data w.next,
         Event.stream_get_schema (E.producer factory.create factory.private_data).get_schema
           w.next schema,
         Event.stream_release (E.producer factory.create factory.private_data).release w.next] ∧
    (ArrowStreamFactory.GetSchema E factory_ptr schema w).2.streams = w.streams ∧
    (ArrowStreamFactory.GetSchema E factory_ptr schema w).2.heap = w.heap := by
  obtain ⟨hs, _, hr⟩ := hconf
  simp [ArrowStreamFactory.GetSchema, hlive, ArrowStreamFactory.GetStream,
    make_unique_ArrowArrayStreamWrapper, World.log, writeStream, findStream, hs, hr,
    ArrowArrayStreamWrapper.dtor, removeStream]

/-- Instance of the above at the sample engine: an adapter at address 1 in an otherwise fresh process. -/
theorem GetSchema_spec_witness :
    (ArrowStreamFactory.GetSchema sampleEnv 1 9 (make_shared 100 200 300 World.init).2).2.trace
      = [Event.create_call 100 300 2, Event.stream_get_schema 11 2 9,
         Event.stream_release 13 2] :=
  (GetSchema_spec sampleEnv 1 9 (make_shared 100 200 300 World.init).2
    { create := 100, drop := 200, private_data := 300 } rfl (by decide)).2.1

/-- C6: `CreateStream` does not read its scan parameters: for any two parameter
values the result and the final state are the same.  On a live adapter it is
exactly `GetStream()`: the create callback is called exactly once, with only the
adapter's `private_data` and the address of a wrapper allocated by this call,
and that wrapper, holding what the producer wrote, is returned.  Nothing is
cached: a second call invokes the callback again and returns another wrapper. -/
theorem CreateStream_ignores_parameters (E : Env) (this_ptr : Addr)
    (p1 p2 : ArrowStreamParameters) (w : World) (factory : ArrowStreamFactory)
    (hlive : w.factory_at this_ptr = some factory) :
    ArrowStreamFactory.CreateStream E this_ptr p1 w
      = ArrowStreamFactory.CreateStream E this_ptr p2 w ∧
    ArrowStreamFactory.CreateStream E this_ptr p1 w
      = (Except.ok (factory.GetStream E w).1, (factory.GetStream E w).2) ∧
    (ArrowStreamFactory.CreateStream E this_ptr p1 w).1 = Except.ok w.next ∧
    (ArrowStreamFactory.CreateStream E this_ptr p1 w).2.trace
      = w.trace ++ [Event.create_call factory.create factory.private_data w.next] ∧
    findStream w.next (ArrowStreamFactory.CreateStream E this_ptr p1 w).2.streams
      = some (E.producer factory.create factory.private_data) ∧
    (ArrowStreamFactory.CreateStream E this_ptr p2
        (ArrowStreamFactory.CreateStream E this_ptr p1 w).2).1 = Except.ok (w.next + 1) ∧
    (ArrowStreamFactory.CreateStream E this_ptr p2
        (ArrowStreamFactory.CreateStream E this_ptr p1 w).2).2.trace
      = w.trace ++ [Event.create_call factory.create factory.private_data w.next,
                    Event.create_call factory.create factory.private_data (w.next + 1)] := by
  have hlive2 : (factory.GetStream E w).2.factory_at this_ptr = some factory := by
    simpa [World.factory_at, ArrowStreamFactory.GetStream, make_unique_ArrowArrayStreamWrapper,
      World.log] using hlive
  refine ⟨rfl, ?_, ?_, ?_, ?_, ?_, ?_⟩
  · simp [ArrowStreamFactory.CreateStream, hlive]
  · simp [ArrowStreamFactory.CreateStream, hlive, ArrowStreamFactory.GetStream,
      make_unique_ArrowArrayStreamWrapper]
  · simp [ArrowStreamFactory.CreateStream, hlive, ArrowStreamFactory.GetStream,
      make_unique_ArrowArrayStreamWrapper, World.log]
  · simp [ArrowStreamFactory.CreateStream, hlive, ArrowStreamFactory.GetStream,
      make_unique_ArrowArrayStreamWrapper, World.log, writeStream, findStream]
  · simp only [ArrowStreamFactory.CreateStream, hlive, hlive2]
    simp [ArrowStreamFactory.GetStream, make_unique_ArrowArrayStreamWrapper, World.log]
  · simp only [ArrowStreamFactory.CreateStream, hlive, hlive2]
    simp [ArrowStreamFactory.GetStream, make_unique_ArrowArrayStreamWrapper, World.log]

/-- Instance of the above at the sample engine: an adapter at address 1, scanned with two different
parameter values. -/
theorem CreateStream_ignores_parameters_witness :
    ArrowStreamFactory.CreateStream sampleEnv 1
        { projected_columns := { projection_map := [(0, "x")], columns := ["x"] }, filters := 5 }
        (make_shared 100 200 300 World.init).2
      = ArrowStreamFactory.CreateStream sampleEnv 1
        { projected_columns := { projection_map := [], columns := [] }, filters := 0 }
        (make_shared 100 200 300 World.init).2 :=
  (CreateStream_ignores_parameters sampleEnv 1
    { projected_columns := { projection_map := [(0, "x")], columns := ["x"] }, filters := 5 }
    { projected_columns := { projection_map := [], columns := [] }, filters := 0 }
    (make_shared 100 200 300 World.init).2
    { create := 100, drop := 200, private_data := 300 } rfl).1

/-! ## Query execution -/

/-- C8: every call `query(conn, sql)` with defined behaviour, whatever the SQL
text: the engine's `Query` is called exactly once, on that text, and returns a
result (rows, or the engine-formatted error); exactly one rendering of that
result is appended to standard output; between the two engine calls only
callbacks run; and `query` returns normally with no value, so that an
execution error is not signalled to the caller. -/
theorem query_prints_once (E : Env) (conn : Addr) (sql : String) (w : World)
    (hdef : (query E conn sql w).1 ≠ Except.error Fault.undefined) :
    ∃ result callbacks,
      (Connection.Query E conn sql w).1 = Except.ok result ∧
      (query E conn sql w).1 = Except.ok () ∧
      (query E conn sql w).2.trace
        = w.trace ++ [Event.Query conn sql] ++ callbacks ++ [Event.Print result] ∧
      apiCalls callbacks = [] ∧
      apiCalls ([Event.Query conn sql] ++ callbacks ++ [Event.Print result])
        = [Event.Query conn sql, Event.Print result] ∧
      (query E conn sql w).2.stdout = w.stdout ++ [result] := by
  have hstep := Query_step E conn sql w
  have hthrow := Query_does_not_throw E conn sql w
  simp only [query] at hdef ⊢
  generalize Connection.Query E conn sql w = x at hstep hthrow hdef ⊢
  obtain ⟨r, w1⟩ := x
  cases r with
  | error f =>
    cases f with
    | thrown msg => exact absurd rfl (hthrow msg)
    | undefined => exact absurd rfl hdef
  | ok result =>
    obtain ⟨d, ht, ha, _, hs, _, _⟩ := hstep
    refine ⟨result, d, rfl, rfl, ?_, ha, ?_, ?_⟩
    · simp only [QueryResult.Print, World.log] at ht ⊢
      simp [ht]
    · rw [apiCalls_append, apiCalls_append, ha]
      rfl
    · simp only [QueryResult.Print, World.log] at hs ⊢
      simp [hs]

/-- Instance of the above at the sample engine, on a fresh connection: a text the engine rejects is
printed as an error, and `query` still returns normally. -/
theorem query_prints_once_witness :
    ∃ result callbacks,
      (Connection.Query sampleEnv 2 "selec" (new_in_memory sampleEnv 0 0 World.init).2.2).1
        = Except.ok result ∧
      (query sampleEnv 2 "selec" (new_in_memory sampleEnv 0 0 World.init).2.2).1 = Except.ok () ∧
      (query sampleEnv 2 "selec" (new_in_memory sampleEnv 0 0 World.init).2.2).2.trace
        = (new_in_memory sampleEnv 0 0 World.init).2.2.trace ++ [Event.Query 2 "selec"]
            ++ callbacks ++ [Event.Print result] ∧
      apiCalls callbacks = [] ∧
      apiCalls ([Event.Query 2 "selec"] ++ callbacks ++ [Event.Print result])
        = [Event.Query 2 "selec", Event.Print result] ∧
      (query sampleEnv 2 "selec" (new_in_memory sampleEnv 0 0 World.init).2.2).2.stdout
        = (new_in_memory sampleEnv 0 0 World.init).2.2.stdout ++ [result] :=
  query_prints_once sampleEnv 2 "selec" (new_in_memory sampleEnv 0 0 World.init).2.2 (by decide)

/-! ## Registration -/

/-- C2: on a live connection, with an engine whose table-function and
view-creation calls succeed and a conforming producer, `register_arrow_stream`
returns normally and
* constructs exactly one adapter, holding `(create, drop, private_data)`;
* calls the engine's `"arrow_scan"` table function once, with exactly three
  pointer parameters: the adapter, then `CreateStream`, then `GetSchema`;
* creates the view `name` from that relation, with `replace = true` and
  `temporary = true`, these two being its only engine calls;
* appends that adapter to the registry vector under the key `"konbert"`;
* leaves the adapter with a single owner, the registry entry, and calls no
  release callback. -/
theorem register_arrow_stream_spec (E : Env) (conn : Addr) (name : String)
    (create : create_arrow_stream) (drop : drop_arrow_stream_factory) (private_data : Addr)
    (w : World) (ctx : ClientContext)
    (hconn : findContext conn w.connections = some ctx)
    (hfault : E.table_function_fault "arrow_scan"
      [Value.POINTER w.next, Value.POINTER CreateStream_ptr, Value.POINTER GetSchema_ptr] = none)
    (hview : E.create_view_ok name = true)
    (hconf : E.conforming create private_data) :
    (register_arrow_stream E conn name create drop private_data w).1 = Except.ok () ∧
    (register_arrow_stream E conn name create drop private_data w).2.heap
      = { addr := w.next,
          obj := { create := create, drop := drop, private_data := private_data },
          use_count := 1 } :: w.heap ∧
    (∃ delta ctx1,
      (register_arrow_stream E conn name create drop private_data w).2.trace
        = w.trace ++ delta ∧
      apiCalls delta
        = [Event.TableFunction conn "arrow_scan"
             [Value.POINTER w.next, Value.POINTER CreateStream_ptr, Value.POINTER GetSchema_ptr],
           Event.CreateView conn name true true] ∧
      drops delta = [] ∧
      findContext conn (register_arrow_stream E conn name create drop private_data w).2.connections
        = some ctx1 ∧
      findView name ctx1.views
        = some { name := name,
                 relation := { fname := "arrow_scan",
                               params := [Value.POINTER w.next, Value.POINTER CreateStream_ptr,
                                          Value.POINTER GetSchema_ptr] },
                 temporary := true } ∧
      depsAt "konbert" ctx1.external_dependencies
        = depsAt "konbert" ctx.external_dependencies ++ [w.next]) ∧
    (register_arrow_stream E conn name create drop private_data w).2.use_count w.next = 1 := by
  rw [register_arrow_stream_eq E conn name create drop private_data w ctx hconn hfault hview hconf]
  refine ⟨rfl, rfl, ⟨_, registeredContext ctx name w.next, rfl, rfl, rfl, ?_, ?_, ?_⟩, ?_⟩
  · exact findContext_writeContext conn ctx _ w.connections hconn
  · exact findView_putView (scanView name w.next) ctx.views
  · exact depsAt_push_back "konbert" w.next ctx.external_dependencies
  · simp [registeredWorld, World.use_count, findCell]

/-- Instance of the above at the sample engine: registering `t` on the connection of a fresh process. -/
theorem register_arrow_stream_spec_witness :
    (register_arrow_stream sampleEnv 2 "t" 100 200 300
        (new_in_memory sampleEnv 0 0 World.init).2.2).2.heap
      = [{ addr := 3, obj := { create := 100, drop := 200, private_data := 300 },
           use_count := 1 }] :=
  (register_arrow_stream_spec sampleEnv 2 "t" 100 200 300
    (new_in_memory sampleEnv 0 0 World.init).2.2
    { db := 1, views := [], external_dependencies := [] } rfl rfl rfl (by decide)).2.1

/-- C3: registering twice under the same name, adapter `A` then adapter `B`, on
a live connection (engine calls succeeding, conforming producers): both calls
return normally; the view `name` is bound to the relation of `B`; no release
callback has been called when the second call returns; `A` is still live,
with one owner, and the registry vector under `"konbert"` ends with `A` then
`B`; and the release callback of `A` is called, with its `private_data`, when
that one owner is released. -/
theorem reregister_same_name_keeps_old_adapter (E : Env) (conn : Addr) (name : String)
    (createA : create_arrow_stream) (dropA : drop_arrow_stream_factory) (pA : Addr)
    (createB : create_arrow_stream) (dropB : drop_arrow_stream_factory) (pB : Addr)
    (w : World) (ctx : ClientContext)
    (hconn : findContext conn w.connections = some ctx)
    (hfault : ∀ params, E.table_function_fault "arrow_scan" params = none)
    (hview : E.create_view_ok name = true)
    (hconfA : E.conforming createA pA) (hconfB : E.conforming createB pB) :
    ∃ w1 w2 a b ctx2 delta,
      register_arrow_stream E conn name createA dropA pA w = (Except.ok (), w1) ∧
      register_arrow_stream E conn name createB dropB pB w1 = (Except.ok (), w2) ∧
      a ≠ b ∧
      w2.factory_at a = some { create := createA, drop := dropA, private_data := pA } ∧
      w2.factory_at b = some { create := createB, drop := dropB, private_data := pB } ∧
      findContext conn w2.connections = some ctx2 ∧
      findView name ctx2.views = some (scanView name b) ∧
      depsAt "konbert" ctx2.external_dependencies
        = depsAt "konbert" ctx.external_dependencies ++ [a, b] ∧
      w2.trace = w.trace ++ delta ∧ drops delta = [] ∧
      w2.use_count a = 1 ∧
      (shared_ptr_release a w2).trace = w2.trace ++ [Event.drop_call dropA pA] := by
  have h1 := register_arrow_stream_eq E conn name createA dropA pA w ctx hconn (hfault _)
    hview hconfA
  have hconn1 := findContext_writeContext conn ctx (registeredContext ctx name w.next)
    w.connections hconn
  have h2 := register_arrow_stream_eq E conn name createB dropB pB
    (registeredWorld E conn name createA dropA pA w ctx)
    (registeredContext ctx name w.next) hconn1 (hfault _) hview hconfB
  refine ⟨_, _, w.next, w.next + 3,
    registeredContext (registeredContext ctx name w.next) name (w.next + 3),
    registrationEvents E conn name createA pA w.next
      ++ registrationEvents E conn name createB pB (w.next + 3),
    h1, h2, by simp, ?_, ?_, ?_, ?_, ?_, ?_, ?_, ?_, ?_⟩
  · simp [registeredWorld, World.factory_at, findCell]
  · simp [registeredWorld, World.factory_at, findCell]
  · exact findContext_writeContext conn _ _ _ hconn1
  · exact findView_putView (scanView name (w.next + 3)) _
  · simp [registeredContext, depsAt_push_back]
  · simp [registeredWorld]
  · rfl
  · simp [registeredWorld, World.use_count, findCell]
  · simp [registeredWorld, shared_ptr_release, findCell, ArrowStreamFactory.dtor, World.log]

/-- Instance of the above at the sample engine: `t` registered twice on the connection of a fresh process. -/
theorem reregister_same_name_keeps_old_adapter_witness :
    ∃ w1 w2 a b ctx2 delta,
      register_arrow_stream sampleEnv 2 "t" 100 200 300
          (new_in_memory sampleEnv 0 0 World.init).2.2 = (Except.ok (), w1) ∧
      register_arrow_stream sampleEnv 2 "t" 101 201 301 w1 = (Except.ok (), w2) ∧
      a ≠ b ∧
      w2.factory_at a = some { create := 100, drop := 200, private_data := 300 } ∧
      w2.factory_at b = some { create := 101, drop := 201, private_data := 301 } ∧
      findContext 2 w2.connections = some ctx2 ∧
      findView "t" ctx2.views = some (scanView "t" b) ∧
      depsAt "konbert" ctx2.external_dependencies = depsAt "konbert" [] ++ [a, b] ∧
      w2.trace = (new_in_memory sampleEnv 0 0 World.init).2.2.trace ++ delta ∧
      drops delta = [] ∧
      w2.use_count a = 1 ∧
      (shared_ptr_release a w2).trace = w2.trace ++ [Event.drop_call 200 300] :=
  reregister_same_name_keeps_old_adapter sampleEnv 2 "t" 100 200 300 101 201 301
    (new_in_memory sampleEnv 0 0 World.init).2.2
    { db := 1, views := [], external_dependencies := [] } rfl (fun _ => rfl) rfl
    (by decide) (by decide)

/-- C4: registering adapter `A` under `na` and then adapter `B` under a
different name `nb`, on any live connection whose registry refers only to
addresses allocated before (engine calls succeeding, conforming producers):
both views exist, each bound to the relation of its own adapter; the second
registration leaves the view `na` and the adapter `A` (object and owner
count) as they were; destroying the connection calls, besides what destroying
it before the two registrations would have called, `dropA` exactly once with
`pA` and `dropB` exactly once with `pB`, and leaves the same adapters live; and
`A` is released in the same way when the connection is destroyed without `B`
ever being registered. -/
theorem register_two_names_independent (E : Env) (db conn : Addr) (na nb : String)
    (createA : create_arrow_stream) (dropA : drop_arrow_stream_factory) (pA : Addr)
    (createB : create_arrow_stream) (dropB : drop_arrow_stream_factory) (pB : Addr)
    (w : World) (ctx : ClientContext)
    (hne : na ≠ nb)
    (hconn : findContext conn w.connections = some ctx)
    (hwf : ∀ kv ∈ ctx.external_dependencies, ∀ p ∈ kv.2, p < w.next)
    (hfault : ∀ params, E.table_function_fault "arrow_scan" params = none)
    (hviewA : E.create_view_ok na = true) (hviewB : E.create_view_ok nb = true)
    (hconfA : E.conforming createA pA) (hconfB : E.conforming createB pB) :
    ∃ w1 w2 a b ctx1 ctx2 delta0 delta1 delta2,
      register_arrow_stream E conn na createA dropA pA w = (Except.ok (), w1) ∧
      register_arrow_stream E conn nb createB dropB pB w1 = (Except.ok (), w2) ∧
      a ≠ b ∧
      findContext conn w1.connections = some ctx1 ∧
      findView na ctx1.views = some (scanView na a) ∧
      findContext conn w2.connections = some ctx2 ∧
      findView na ctx2.views = some (scanView na a) ∧
      findView nb ctx2.views = some (scanView nb b) ∧
      w1.factory_at a = some { create := createA, drop := dropA, private_data := pA } ∧
      w2.factory_at a = some { create := createA, drop := dropA, private_data := pA } ∧
      w1.use_count a = 1 ∧ w2.use_count a = 1 ∧
      w2.factory_at b = some { create := createB, drop := dropB, private_data := pB } ∧
      w2.use_count b = 1 ∧
      (destroy db conn w).2.trace = w.trace ++ delta0 ∧
      (destroy db conn w1).2.trace = w1.trace ++ delta1 ∧
      (destroy db conn w2).2.trace = w2.trace ++ delta2 ∧
      (drops delta1).Perm (drops delta0 ++ [(dropA, pA)]) ∧
      (drops delta2).Perm (drops delta0 ++ [(dropA, pA), (dropB, pB)]) ∧
      (destroy db conn w2).2.heap = (destroy db conn w).2.heap := by
  have h1 := register_arrow_stream_eq E conn na createA dropA pA w ctx hconn (hfault _)
    hviewA hconfA
  have hconn1 := findContext_writeContext conn ctx (registeredContext ctx na w.next)
    w.connections hconn
  have h2 := register_arrow_stream_eq E conn nb createB dropB pB
    (registeredWorld E conn na createA dropA pA w ctx)
    (registeredContext ctx na w.next) hconn1 (hfault _) hviewB hconfB
  have hconn2 := findContext_writeContext conn (registeredContext ctx na w.next)
    (registeredContext (registeredContext ctx na w.next) nb (w.next + 3))
    (writeContext conn (registeredContext ctx na w.next) w.connections) hconn1
  have d0 := destroy_eq db conn w ctx hconn
  have d1 := destroy_eq db conn (registeredWorld E conn na createA dropA pA w ctx)
    (registeredContext ctx na w.next) hconn1
  have d2 := destroy_eq db conn
    (registeredWorld E conn nb createB dropB pB (registeredWorld E conn na createA dropA pA w ctx)
      (registeredContext ctx na w.next))
    (registeredContext (registeredContext ctx na w.next) nb (w.next + 3)) hconn2
  have hwfA : ∀ kv ∈ ctx.external_dependencies, ∀ p ∈ kv.2, p ≠ w.next :=
    fun kv hkv p hp => Nat.ne_of_lt (hwf kv hkv p hp)
  have hwfB : ∀ kv ∈ deps_push_back "konbert" w.next ctx.external_dependencies,
      ∀ p ∈ kv.2, p ≠ w.next + 3 := by
    intro kv hkv p hp
    rcases mem_deps_push_back "konbert" w.next ctx.external_dependencies kv p hkv hp with
      h | ⟨kv0, hkv0, hp0⟩
    · rw [h]; exact Nat.ne_of_lt (Nat.lt_add_of_pos_right (by decide))
    · exact Nat.ne_of_lt (Nat.lt_add_right 3 (hwf kv0 hkv0 p hp0))
  have fA := releaseRegistry_push_back "konbert"
    { addr := w.next, obj := { create := createA, drop := dropA, private_data := pA },
      use_count := 1 } ctx.external_dependencies w.heap rfl hwfA
  have fB := releaseRegistry_push_back "konbert"
    { addr := w.next + 3, obj := { create := createB, drop := dropB, private_data := pB },
      use_count := 1 } (deps_push_back "konbert" w.next ctx.external_dependencies)
    ({ addr := w.next, obj := { create := createA, drop := dropA, private_data := pA },
       use_count := 1 } :: w.heap) rfl hwfB
  refine ⟨_, _, w.next, w.next + 3, registeredContext ctx na w.next,
    registeredContext (registeredContext ctx na w.next) nb (w.next + 3), _, _, _,
    h1, h2, by simp, hconn1, ?_, hconn2, ?_, ?_, ?_, ?_, ?_, ?_, ?_, ?_,
    d0.1, d1.1, d2.1, ?_, ?_, ?_⟩
  · exact findView_putView (scanView na w.next) ctx.views
  · have hv : (scanView nb (w.next + 3)).name ≠ na := fun h => hne h.symm
    simp only [registeredContext]
    rw [findView_putView_ne _ _ _ hv]
    exact findView_putView (scanView na w.next) ctx.views
  · exact findView_putView (scanView nb (w.next + 3)) _
  · simp [registeredWorld, World.factory_at, findCell]
  · simp [registeredWorld, World.factory_at, findCell]
  · simp [registeredWorld, World.use_count, findCell]
  · simp [registeredWorld, World.use_count, findCell]
  · simp [registeredWorld, World.factory_at, findCell]
  · simp [registeredWorld, World.use_count, findCell]
  · simpa [drops_append, drops, registeredWorld, registeredContext] using fA.2
  · have hB : (drops (releaseRegistry
          (deps_push_back "konbert" (w.next + 3)
            (deps_push_back "konbert" w.next ctx.external_dependencies))
          ({ addr := w.next + 3,
             obj := { create := createB, drop := dropB, private_data := pB },
             use_count := 1 } ::
           { addr := w.next, obj := { create := createA, drop := dropA, private_data := pA },
             use_count := 1 } :: w.heap)).1).Perm
        (drops (releaseRegistry ctx.external_dependencies w.heap).1
          ++ [(dropA, pA), (dropB, pB)]) := by
      refine fB.2.trans ?_
      have := List.Perm.append_right [(dropB, pB)] fA.2
      simpa using this
    simpa [drops_append, drops, registeredWorld, registeredContext] using hB
  · rw [d2.2, d0.2]
    simp only [registeredWorld, registeredContext]
    exact fB.1.trans fA.1

/-- Instance of the above at the sample engine: `t` and `u` registered on a connection of a fresh
process that already holds a view `v` with its adapter. -/
theorem register_two_names_independent_witness :
    ∃ w1 w2 delta0 delta2,
      register_arrow_stream sampleEnv 2 "t" 100 200 300
          (register_arrow_stream sampleEnv 2 "v" 90 91 92
            (new_in_memory sampleEnv 0 0 World.init).2.2).2 = (Except.ok (), w1) ∧
      register_arrow_stream sampleEnv 2 "u" 101 201 301 w1 = (Except.ok (), w2) ∧
      (destroy 1 2 (register_arrow_stream sampleEnv 2 "v" 90 91 92
            (new_in_memory sampleEnv 0 0 World.init).2.2).2).2.trace
        = (register_arrow_stream sampleEnv 2 "v" 90 91 92
            (new_in_memory sampleEnv 0 0 World.init).2.2).2.trace ++ delta0 ∧
      (destroy 1 2 w2).2.trace = w2.trace ++ delta2 ∧
      (drops delta2).Perm (drops delta0 ++ [(200, 300), (201, 301)]) := by
  obtain ⟨w1, w2, _, _, _, _, delta0, _, delta2, h1, h2, _, _, _, _, _, _, _, _, _, _, _, _,
      h3, _, h4, _, h5, _⟩ :=
    register_two_names_independent sampleEnv 1 2 "t" "u" 100 200 300 101 201 301
      (register_arrow_stream sampleEnv 2 "v" 90 91 92
        (new_in_memory sampleEnv 0 0 World.init).2.2).2
      (registeredContext { db := 1, views := [], external_dependencies := [] } "v" 3)
      (by decide) (by decide) (by decide) (fun _ => rfl) rfl rfl (by decide) (by decide)
  exact ⟨w1, w2, delta0, delta2, h1, h2, h3, h4, h5⟩

/-! ## The whole lifecycle -/

/-- C1: the sequence `new_in_memory`, `register_arrow_stream(conn, name, create,
drop, private_data)`, `query(conn, "select * from name")`, `destroy`, started
in any state, with an engine whose calls succeed, for which that statement
scans the view `name`, and a conforming producer.  Every step returns
normally, and the trace of the sequence is `pre`, then one call of `drop` on
the `private_data` given at registration, then `post`, where `pre` contains at
least one call of the create callback (all of them on that `private_data`) and
no release, and `post` contains neither: the release callback is called
exactly once in the whole trace, after the last call of the create callback. -/
theorem lifecycle_releases_exactly_once (E : Env) (name : String)
    (create : create_arrow_stream) (drop : drop_arrow_stream_factory) (private_data : Addr)
    (db_out conn_out : Addr) (w : World)
    (hopen : E.open_ok = true) (hconnect : E.connect_ok = true)
    (hfault : ∀ params, E.table_function_fault "arrow_scan" params = none)
    (hview : E.create_view_ok name = true)
    (hplan : E.plan ("select * from " ++ name) = some [name])
    (hconf : E.conforming create private_data) :
    ∃ db conn w1 w2 w3 w4 pre post,
      new_in_memory E db_out conn_out w = (Except.ok (), (db, conn), w1) ∧
      register_arrow_stream E conn name create drop private_data w1 = (Except.ok (), w2) ∧
      query E conn ("select * from " ++ name) w2 = (Except.ok (), w3) ∧
      destroy db conn w3 = ((nullptr, nullptr), w4) ∧
      w4.trace = w.trace ++ pre ++ Event.drop_call drop private_data :: post ∧
      creates pre ≠ [] ∧
      (∀ x ∈ creates pre, x = (create, private_data)) ∧
      drops pre = [] ∧ drops post = [] ∧ creates post = [] ∧
      drops (pre ++ Event.drop_call drop private_data :: post) = [(drop, private_data)] := by
  have h1 := new_in_memory_eq E db_out conn_out w hopen hconnect
  have h2 := register_arrow_stream_eq E (w.next + 1) name create drop private_data
    (new_in_memory E db_out conn_out w).2.2
    { db := w.next, views := [], external_dependencies := [] }
    (by rw [h1]; simp [findContext]) (hfault _) hview hconf
  have h3 := query_scan_eq E (w.next + 1) ("select * from " ++ name) name (w.next + 2)
    { create := create, drop := drop, private_data := private_data }
    (register_arrow_stream E (w.next + 1) name create drop private_data
      (new_in_memory E db_out conn_out w).2.2).2
    (registeredContext { db := w.next, views := [], external_dependencies := [] } name
      (w.next + 2))
    (by rw [h2, h1]; simp [registeredWorld, writeContext, findContext])
    (by simp [registeredContext, putView, findView, scanView])
    (by rw [h2, h1]; simp [registeredWorld, World.factory_at, findCell])
    hplan hconf
  rw [h2] at h3
  rw [h1] at h2 h3
  refine ⟨w.next, w.next + 1, _, _, _,
    (destroy w.next (w.next + 1) (query E (w.next + 1) ("select * from " ++ name)
      (register_arrow_stream E (w.next + 1) name create drop private_data
        (new_in_memory E db_out conn_out w).2.2).2).2).2,
    [Event.duckdb_open none, Event.duckdb_connect w.next]
      ++ registrationEvents E (w.next + 1) name create private_data (w.next + 2)
      ++ scanEvents E (w.next + 1) ("select * from " ++ name)
           { create := create, drop := drop, private_data := private_data } (w.next + 5)
      ++ [Event.Print (QueryResult.rows [name]), Event.duckdb_disconnect (w.next + 1)],
    [Event.duckdb_close w.next], h1, h2, h3, ?_, ?_, ?_, ?_, ?_, ?_, ?_, ?_⟩
  · rw [h1, h2, h3]
    simp [destroy, duckdb_disconnect, duckdb_close, World.log, registeredWorld, writeContext,
      findContext]
  · rw [h1, h2, h3]
    simp [destroy, duckdb_disconnect, duckdb_close, World.log, registeredWorld, writeContext,
      findContext, removeContext, registeredContext, deps_push_back, release_deps, release_all,
      shared_ptr_release, findCell, ArrowStreamFactory.dtor, removeCell]
  · simp [creates, registrationEvents, scanEvents]
  · intro x hx
    simp [creates, registrationEvents, scanEvents] at hx
    exact hx
  · simp [drops, registrationEvents, scanEvents]
  · rfl
  · rfl
  · simp [drops, registrationEvents, scanEvents]

/-- Instance of the above at the sample engine: the lifecycle of a view `t` from a fresh process. -/
theorem lifecycle_releases_exactly_once_witness :
    ∃ w1 w2 w3 w4,
      new_in_memory sampleEnv 0 0 World.init = (Except.ok (), (1, 2), w1) ∧
      register_arrow_stream sampleEnv 2 "t" 100 200 300 w1 = (Except.ok (), w2) ∧
      query sampleEnv 2 "select * from t" w2 = (Except.ok (), w3) ∧
      destroy 1 2 w3 = ((nullptr, nullptr), w4) ∧
      drops w4.trace = [(200, 300)] := by
  obtain ⟨db, conn, w1, w2, w3, w4, pre, post, h1, h2, h3, h4, h5, _, _, _, _, _, h6⟩ :=
    lifecycle_releases_exactly_once sampleEnv "t" 100 200 300 0 0 World.init rfl rfl
      (fun _ => rfl) rfl (by decide) (by decide)
  have hdb : db = 1 := by
    have := congrArg (fun r => r.2.1.1) h1
    simpa [new_in_memory, duckdb_open, duckdb_connect, sampleEnv, World.init, World.log]
      using this.symm
  have hconn : conn = 2 := by
    have := congrArg (fun r => r.2.1.2) h1
    simpa [new_in_memory, duckdb_open, duckdb_connect, sampleEnv, World.init, World.log]
      using this.symm
  subst hdb hconn
  refine ⟨w1, w2, w3, w4, h1, h2, h3, h4, ?_⟩
  rw [h5, List.append_assoc]
  simpa [World.init] using h6

/-! ## Failure inside registration -/

/-- When the engine's table-function call or its view creation throws inside
`register_arrow_stream`, the function is left through `exit_by_fault` in a
state where nothing but the new adapter, some allocations and some events
(none of them a release) has been added. -/
theorem register_arrow_stream_throw (E : Env) (conn : Addr) (name : String)
    (create : create_arrow_stream) (drop : drop_arrow_stream_factory) (private_data : Addr)
    (w : World) (msg : String)
    (hthrow :
      (Connection.TableFunction E conn "arrow_scan" (scanParams w.next)
          (make_shared create drop private_data w).2).1 = Except.error (Fault.thrown msg) ∨
      ∃ table w2,
        Connection.TableFunction E conn "arrow_scan" (scanParams w.next)
          (make_shared create drop private_data w).2 = (Except.ok table, w2) ∧
        (Relation.CreateView E conn table name true true w2).1
          = Except.error (Fault.thrown msg)) :
    ∃ n delta, drops delta = [] ∧
      register_arrow_stream E conn name create drop private_data w
        = exit_by_fault E (Fault.thrown msg) w.next
            (thrownWorld w create drop private_data n delta) := by
  cases hc : findContext conn w.connections with
  | none =>
    simp [make_shared, Connection.TableFunction, World.log, hc] at hthrow
  | some ctx =>
    by_cases hb : E.table_function_fault "arrow_scan" (scanParams w.next)
        = some BindFault.before_bind
    · simp only [scanParams] at hb
      simp [make_shared, Connection.TableFunction, World.log, hc, hb, scanParams] at hthrow
      subst hthrow
      refine ⟨1, [Event.TableFunction conn "arrow_scan" (scanParams w.next)], rfl, ?_⟩
      simp [register_arrow_stream, make_shared, Connection.TableFunction, World.log, hc, hb,
        scanParams, thrownWorld, exit_by_fault]
    · simp only [scanParams] at hb
      by_cases hs : (E.producer create private_data).get_schema = nullptr
      · simp [make_shared, Connection.TableFunction, World.log, hc, hb,
          arrow_scan_bind, World.alloc, call_get_schema, ArrowStreamFactory.GetSchema,
          World.factory_at, findCell, ArrowStreamFactory.GetStream,
          make_unique_ArrowArrayStreamWrapper, writeStream, findStream, hs, scanParams] at hthrow
      · by_cases ha : E.table_function_fault "arrow_scan"
            [Value.POINTER w.next, Value.POINTER CreateStream_ptr, Value.POINTER GetSchema_ptr]
            = some BindFault.after_bind
        · by_cases hr : (E.producer create private_data).release = nullptr
          · rcases hthrow with h | ⟨table, w2, h1, _⟩
            · simp [make_shared, Connection.TableFunction, World.log, hc, hb, ha, arrow_scan_bind,
                  World.alloc, call_get_schema, ArrowStreamFactory.GetSchema, World.factory_at, findCell,
                  ArrowStreamFactory.GetStream, make_unique_ArrowArrayStreamWrapper, writeStream,
                  findStream, hs, hr, ArrowArrayStreamWrapper.dtor, removeStream, scanParams] at h
              subst h
              refine ⟨3,
                [
                 Event.TableFunction conn "arrow_scan" (scanParams w.next),
                 Event.create_call create private_data (w.next + 2),
                 Event.stream_get_schema (E.producer create private_data).get_schema (w.next + 2) (w.next + 1)], rfl, ?_⟩
              simp [register_arrow_stream, thrownWorld, exit_by_fault, make_shared, Connection.TableFunction, World.log, hc, hb, ha, arrow_scan_bind,
                  World.alloc, call_get_schema, ArrowStreamFactory.GetSchema, World.factory_at, findCell,
                  ArrowStreamFactory.GetStream, make_unique_ArrowArrayStreamWrapper, writeStream,
                  findStream, hs, hr, ArrowArrayStreamWrapper.dtor, removeStream, scanParams]
            · simp [make_shared, Connection.TableFunction, World.log, hc, hb, ha, arrow_scan_bind,
                  World.alloc, call_get_schema, ArrowStreamFactory.GetSchema, World.factory_at, findCell,
                  ArrowStreamFactory.GetStream, make_unique_ArrowArrayStreamWrapper, writeStream,
                  findStream, hs, hr, ArrowArrayStreamWrapper.dtor, removeStream, scanParams] at h1
          · rcases hthrow with h | ⟨table, w2, h1, _⟩
            · simp [make_shared, Connection.TableFunction, World.log, hc, hb, ha, arrow_scan_bind,
                  World.alloc, call_get_schema, ArrowStreamFactory.GetSchema, World.factory_at, findCell,
                  ArrowStreamFactory.GetStream, make_unique_ArrowArrayStreamWrapper, writeStream,
                  findStream, hs, hr, ArrowArrayStreamWrapper.dtor, removeStream, scanParams] at h
              subst h
              refine ⟨3,
                [
                 Event.TableFunction conn "arrow_scan" (scanParams w.next),
                 Event.create_call create private_data (w.next + 2),
                 Event.stream_get_schema (E.producer create private_data).get_schema (w.next + 2) (w.next + 1),
                 Event.stream_release (E.producer create private_data).release (w.next + 2)], rfl, ?_⟩
              simp [register_arrow_stream, thrownWorld, exit_by_fault, make_shared, Connection.TableFunction, World.log, hc, hb, ha, arrow_scan_bind,
                  World.alloc, call_get_schema, ArrowStreamFactory.GetSchema, World.factory_at, findCell,
                  ArrowStreamFactory.GetStream, make_unique_ArrowArrayStreamWrapper, writeStream,
                  findStream, hs, hr, ArrowArrayStreamWrapper.dtor, removeStream, scanParams]
            · simp [make_shared, Connection.TableFunction, World.log, hc, hb, ha, arrow_scan_bind,
                  World.alloc, call_get_schema, ArrowStreamFactory.GetSchema, World.factory_at, findCell,
                  ArrowStreamFactory.GetStream, make_unique_ArrowArrayStreamWrapper, writeStream,
                  findStream, hs, hr, ArrowArrayStreamWrapper.dtor, removeStream, scanParams] at h1
        · by_cases hv : E.create_view_ok name = true
          · by_cases hr : (E.producer create private_data).release = nullptr
            · rcases hthrow with h | ⟨table, w2, h1, h⟩
              · simp [make_shared, Connection.TableFunction, World.log, hc, hb, ha, arrow_scan_bind,
                    World.alloc, call_get_schema, ArrowStreamFactory.GetSchema, World.factory_at, findCell,
                    ArrowStreamFactory.GetStream, make_unique_ArrowArrayStreamWrapper, writeStream,
                    findStream, hs, hr, ArrowArrayStreamWrapper.dtor, removeStream, scanParams] at h
              · simp [make_shared, Connection.TableFunction, World.log, hc, hb, ha, arrow_scan_bind,
                    World.alloc, call_get_schema, ArrowStreamFactory.GetSchema, World.factory_at, findCell,
                    ArrowStreamFactory.GetStream, make_unique_ArrowArrayStreamWrapper, writeStream,
                    findStream, hs, hr, ArrowArrayStreamWrapper.dtor, removeStream, scanParams] at h1
                obtain ⟨rfl, rfl⟩ := h1
                simp [Relation.CreateView, World.log, hc, hv] at h
            · rcases hthrow with h | ⟨table, w2, h1, h⟩
              · simp [make_shared, Connection.TableFunction, World.log, hc, hb, ha, arrow_scan_bind,
                    World.alloc, call_get_schema, ArrowStreamFactory.GetSchema, World.factory_at, findCell,
                    ArrowStreamFactory.GetStream, make_unique_ArrowArrayStreamWrapper, writeStream,
                    findStream, hs, hr, ArrowArrayStreamWrapper.dtor, removeStream, scanParams] at h
              · simp [make_shared, Connection.TableFunction, World.log, hc, hb, ha, arrow_scan_bind,
                    World.alloc, call_get_schema, ArrowStreamFactory.GetSchema, World.factory_at, findCell,
                    ArrowStreamFactory.GetStream, make_unique_ArrowArrayStreamWrapper, writeStream,
                    findStream, hs, hr, ArrowArrayStreamWrapper.dtor, removeStream, scanParams] at h1
                obtain ⟨rfl, rfl⟩ := h1
                simp [Relation.CreateView, World.log, hc, hv] at h
          · by_cases hr : (E.producer create private_data).release = nullptr
            · rcases hthrow with h | ⟨table, w2, h1, h⟩
              · simp [make_shared, Connection.TableFunction, World.log, hc, hb, ha, arrow_scan_bind,
                    World.alloc, call_get_schema, ArrowStreamFactory.GetSchema, World.factory_at, findCell,
                    ArrowStreamFactory.GetStream, make_unique_ArrowArrayStreamWrapper, writeStream,
                    findStream, hs, hr, ArrowArrayStreamWrapper.dtor, removeStream, scanParams] at h
              · simp [make_shared, Connection.TableFunction, World.log, hc, hb, ha, arrow_scan_bind,
                    World.alloc, call_get_schema, ArrowStreamFactory.GetSchema, World.factory_at, findCell,
                    ArrowStreamFactory.GetStream, make_unique_ArrowArrayStreamWrapper, writeStream,
                    findStream, hs, hr, ArrowArrayStreamWrapper.dtor, removeStream, scanParams] at h1
                obtain ⟨rfl, rfl⟩ := h1
                simp [Relation.CreateView, World.log, hc, hv] at h
                subst h
                refine ⟨3,
                  [
                   Event.TableFunction conn "arrow_scan" (scanParams w.next),
                   Event.create_call create private_data (w.next + 2),
                   Event.stream_get_schema (E.producer create private_data).get_schema (w.next + 2) (w.next + 1),
                   Event.CreateView conn name true true], rfl, ?_⟩
                simp [register_arrow_stream, thrownWorld, exit_by_fault, Relation.CreateView, hv,
                  make_shared, Connection.TableFunction, World.log, hc, hb, ha, arrow_scan_bind,
                    World.alloc, call_get_schema, ArrowStreamFactory.GetSchema, World.factory_at, findCell,
                    ArrowStreamFactory.GetStream, make_unique_ArrowArrayStreamWrapper, writeStream,
                    findStream, hs, hr, ArrowArrayStreamWrapper.dtor, removeStream, scanParams]
            · rcases hthrow with h | ⟨table, w2, h1, h⟩
              · simp [make_shared, Connection.TableFunction, World.log, hc, hb, ha, arrow_scan_bind,
                    World.alloc, call_get_schema, ArrowStreamFactory.GetSchema, World.factory_at, findCell,
                    ArrowStreamFactory.GetStream, make_unique_ArrowArrayStreamWrapper, writeStream,
                    findStream, hs, hr, ArrowArrayStreamWrapper.dtor, removeStream, scanParams] at h
              · simp [make_shared, Connection.TableFunction, World.log, hc, hb, ha, arrow_scan_bind,
                    World.alloc, call_get_schema, ArrowStreamFactory.GetSchema, World.factory_at, findCell,
                    ArrowStreamFactory.GetStream, make_unique_ArrowArrayStreamWrapper, writeStream,
                    findStream, hs, hr, ArrowArrayStreamWrapper.dtor, removeStream, scanParams] at h1
                obtain ⟨rfl, rfl⟩ := h1
                simp [Relation.CreateView, World.log, hc, hv] at h
                subst h
                refine ⟨3,
                  [
                   Event.TableFunction conn "arrow_scan" (scanParams w.next),
                   Event.create_call create private_data (w.next + 2),
                   Event.stream_get_schema (E.producer create private_data).get_schema (w.next + 2) (w.next + 1),
                   Event.stream_release (E.producer create private_data).release (w.next + 2),
                   Event.CreateView conn name true true], rfl, ?_⟩
                simp [register_arrow_stream, thrownWorld, exit_by_fault, Relation.CreateView, hv,
                  make_shared, Connection.TableFunction, World.log, hc, hb, ha, arrow_scan_bind,
                    World.alloc, call_get_schema, ArrowStreamFactory.GetSchema, World.factory_at, findCell,
                    ArrowStreamFactory.GetStream, make_unique_ArrowArrayStreamWrapper, writeStream,
                    findStream, hs, hr, ArrowArrayStreamWrapper.dtor, removeStream, scanParams]

/-- Counterexample to C10 as stated: on the connection of a fresh process, with
an engine whose view creation throws and no caller that catches, the exception
leaves `register_arrow_stream`, the registry is as before, yet the drop
callback is never called: the trace of the call holds no release and the
adapter built by the call is still on the heap with its one owner. -/
theorem register_failure_uncaught_never_drops :
    (register_arrow_stream uncaughtViewEnv 2 "t" 100 200 300
        (new_in_memory uncaughtViewEnv 0 0 World.init).2.2).1
      = Except.error (Fault.thrown "CreateView") ∧
    (register_arrow_stream uncaughtViewEnv 2 "t" 100 200 300
        (new_in_memory uncaughtViewEnv 0 0 World.init).2.2).2.connections
      = (new_in_memory uncaughtViewEnv 0 0 World.init).2.2.connections ∧
    drops (register_arrow_stream uncaughtViewEnv 2 "t" 100 200 300
        (new_in_memory uncaughtViewEnv 0 0 World.init).2.2).2.trace = [] ∧
    (register_arrow_stream uncaughtViewEnv 2 "t" 100 200 300
        (new_in_memory uncaughtViewEnv 0 0 World.init).2.2).2.heap
      = [{ addr := 3, obj := { create := 100, drop := 200, private_data := 300 },
           use_count := 1 }] := by
  refine ⟨?_, ?_, ?_, ?_⟩ <;> decide

/-- C10, amended: when the engine's table-function call or its view creation
throws inside `register_arrow_stream`, the exception leaves the function (it
has no handler) and the connections, and so the dependency registry, are
exactly as before the call; no release callback is called before the
exception leaves.  When some caller catches the exception, the stack is
unwound: the local owner, the only one, is released, the adapter is destroyed
(the live adapters are those of before) and the last event of the call is the
one call of `drop` on `private_data`.  When no caller catches it, nothing is
unwound: the drop callback is not called and the adapter stays on the heap. -/
theorem register_failure_drops_only_when_caught (E : Env) (conn : Addr) (name : String)
    (create : create_arrow_stream) (drop : drop_arrow_stream_factory) (private_data : Addr)
    (w : World) (msg : String)
    (hthrow :
      (Connection.TableFunction E conn "arrow_scan" (scanParams w.next)
          (make_shared create drop private_data w).2).1 = Except.error (Fault.thrown msg) ∨
      ∃ table w2,
        Connection.TableFunction E conn "arrow_scan" (scanParams w.next)
          (make_shared create drop private_data w).2 = (Except.ok table, w2) ∧
        (Relation.CreateView E conn table name true true w2).1
          = Except.error (Fault.thrown msg)) :
    (register_arrow_stream E conn name create drop private_data w).1
      = Except.error (Fault.thrown msg) ∧
    (register_arrow_stream E conn name create drop private_data w).2.connections
      = w.connections ∧
    ∃ delta, drops delta = [] ∧
      (E.caller_catches = true →
        (register_arrow_stream E conn name create drop private_data w).2.heap = w.heap ∧
        (register_arrow_stream E conn name create drop private_data w).2.trace
          = w.trace ++ delta ++ [Event.drop_call drop private_data] ∧
        drops (delta ++ [Event.drop_call drop private_data]) = [(drop, private_data)]) ∧
      (E.caller_catches = false →
        (register_arrow_stream E conn name create drop private_data w).2.heap
          = { addr := w.next,
              obj := { create := create, drop := drop, private_data := private_data },
              use_count := 1 } :: w.heap ∧
        (register_arrow_stream E conn name create drop private_data w).2.trace
          = w.trace ++ delta) := by
  obtain ⟨n, delta, hd, heq⟩ :=
    register_arrow_stream_throw E conn name create drop private_data w msg hthrow
  rw [heq]
  by_cases hcc : E.caller_catches = true
  · refine ⟨?_, ?_, delta, hd, ?_, ?_⟩
    · simp [exit_by_fault, hcc]
    · simp [exit_by_fault, hcc, thrownWorld, shared_ptr_release, findCell,
        ArrowStreamFactory.dtor, World.log]
    · intro _
      refine ⟨?_, ?_, ?_⟩
      · simp [exit_by_fault, hcc, thrownWorld, shared_ptr_release, findCell,
          ArrowStreamFactory.dtor, World.log, removeCell]
      · simp [exit_by_fault, hcc, thrownWorld, shared_ptr_release, findCell,
          ArrowStreamFactory.dtor, World.log]
      · simp [drops_append, hd, drops]
    · intro h
      exact absurd hcc (by simp [h])
  · refine ⟨?_, ?_, delta, hd, ?_, ?_⟩
    · simp [exit_by_fault, hcc]
    · simp [exit_by_fault, hcc, thrownWorld]
    · intro h
      exact absurd h hcc
    · intro _
      simp [exit_by_fault, hcc, thrownWorld]

/-- Instance of the above at two engines whose exceptions the caller catches, on
the connection of a fresh process: one whose table-function call throws and one
whose view creation throws.  In both the exception leaves the function and the
adapter built by the call is gone. -/
theorem register_failure_drops_only_when_caught_witness :
    ((register_arrow_stream failingTableEnv 2 "t" 100 200 300
        (new_in_memory failingTableEnv 0 0 World.init).2.2).1
      = Except.error (Fault.thrown "TableFunction") ∧
     (register_arrow_stream failingTableEnv 2 "t" 100 200 300
        (new_in_memory failingTableEnv 0 0 World.init).2.2).2.heap = []) ∧
    ((register_arrow_stream failingViewEnv 2 "t" 100 200 300
        (new_in_memory failingViewEnv 0 0 World.init).2.2).1
      = Except.error (Fault.thrown "CreateView") ∧
     (register_arrow_stream failingViewEnv 2 "t" 100 200 300
        (new_in_memory failingViewEnv 0 0 World.init).2.2).2.heap = []) := by
  obtain ⟨h1, _, _, _, hc1, _⟩ :=
    register_failure_drops_only_when_caught failingTableEnv 2 "t" 100 200 300
      (new_in_memory failingTableEnv 0 0 World.init).2.2 "TableFunction" (Or.inl (by decide))
  obtain ⟨h2, _, _, _, hc2, _⟩ :=
    register_failure_drops_only_when_caught failingViewEnv 2 "t" 100 200 300
      (new_in_memory failingViewEnv 0 0 World.init).2.2 "CreateView"
      (Or.inr ⟨_, _, rfl, by decide⟩)
  exact ⟨⟨h1, (hc1 rfl).1⟩, ⟨h2, (hc2 rfl).1⟩⟩

end Kon
